import Mathlib

/-!
# Map-based deployment repository

A shallow embedding of `manager/repository/repository.go`: the in-memory
store `mapBasedRepository` with its three maps (deployments, manifests,
type instances) and the operations of the `Repository` interface.

Modelling conventions.

* A Go `map[string]T` is a finite map with unique keys, `GoMap T`
  (Mathlib's `AList`).  `m[k] = v` is `AList.insert`, `delete(m, k)` is
  `AList.erase`, `v, ok := m[k]` is `AList.lookup`.  Ranging over a map
  visits the entries in the order of the underlying list (Go leaves the
  order unspecified).
* Every method takes the repository value and returns its result together
  with the repository value after the call, because a method may write to
  the maps on its error path as well as on its success path.
* An `error` built with `fmt.Errorf` is a constructor of `RepoError`, one
  constructor per format string of the source.
* `time.Now()` is an explicit argument `now`.  Calls of `log.Printf` and
  the lock (`r.Lock()`, `r.Unlock()`) have no effect on the sequential
  behaviour and are left out.
* Pointers to records (`*common.Deployment`, `*common.DeploymentState`,
  `*common.Manifest`, `*common.TypeInstance`) are the records themselves;
  a nil `State` or `manifest` argument is outside the modelled inputs.
-/

namespace Repository

/-- Finite map keyed by strings, standing for a Go `map[string]β`. -/
abbrev GoMap (β : Type) := AList (fun _ : String => β)

/-- Time stamps (`time.Time`), as an abstract clock reading. -/
abbrev Time := Nat

/-- Modelled from the spec: the type `common.DeploymentStatus` and its
constant `common.DeletedStatus` are declared in package `common`, which is
not part of the sources at hand.  The status is a string-valued enumeration
(spec, section 3: "status enum, at minimum Active, Deleted"). -/
abbrev DeploymentStatus := String

/-- Modelled from the spec: the constant `common.DeletedStatus`, the status of
a tombstoned deployment. -/
def DeletedStatus : DeploymentStatus := "Deleted"

/-- Modelled from the spec: the type `common.DeploymentState` (declared in
package `common`), "status enum plus arbitrary state payload".  The source
reads and writes only the field `Status`. -/
structure DeploymentState where
  Status : DeploymentStatus
  Payload : List String
  deriving DecidableEq, Repr

/-- Modelled from the spec: the type `common.Deployment` (declared in package
`common`).  The fields `DeployedAt`, `DeletedAt`, `ModifiedAt`, `State` and
`LatestManifest` are the ones the source assigns; `Name` and `CreatedAt` are
the name and creation time stamp of the spec's data model. -/
structure Deployment where
  Name : String
  CreatedAt : Time
  DeployedAt : Time
  ModifiedAt : Time
  DeletedAt : Time
  State : DeploymentState
  LatestManifest : String
  deriving DecidableEq, Repr

/-- Modelled from the spec: the type `common.Manifest` (declared in package
`common`), "a manifest object with at least a name field"; `Content` stands
for the rest of the record, which the store never inspects. -/
structure Manifest where
  Name : String
  Content : String
  deriving DecidableEq, Repr

/-- Modelled from the spec: the type `common.TypeInstance` (declared in
package `common`), an opaque runtime resource record. -/
structure TypeInstance where
  Name : String
  Path : String
  deriving DecidableEq, Repr

/-- Modelled from the spec: the constructor `common.NewDeployment` (declared
in package `common`): "allocates a new record with current creation timestamp
and empty state", with no latest manifest ("empty string if none"). -/
def NewDeployment (name : String) (now : Time) : Deployment :=
  { Name := name
    CreatedAt := now
    DeployedAt := 0
    ModifiedAt := 0
    DeletedAt := 0
    State := { Status := "", Payload := [] }
    LatestManifest := "" }

/-- The errors of the repository, one constructor per `fmt.Errorf` format
string of the source. -/
inductive RepoError where
  /-- Message "deployment %s not found". -/
  | deploymentNotFound (name : String)
  /-- Message "deployment %s is deleted". -/
  | deploymentDeleted (name : String)
  /-- Message "Deployment %s already exists". -/
  | deploymentExists (name : String)
  /-- Message "Manifest %s already exists in deployment %s". -/
  | manifestExists (manifestName deploymentName : String)
  /-- Message "manifest %s not found in deployment %s". -/
  | manifestNotFound (manifestName deploymentName : String)
  deriving DecidableEq, Repr

/-- The map `deploymentTypeInstanceMap`: instances by deployment name. -/
abbrev deploymentTypeInstanceMap := GoMap (List TypeInstance)

/-- The map `typeInstanceMap`: instances by type name, then by deployment
name. -/
abbrev typeInstanceMap := GoMap deploymentTypeInstanceMap

/-- The struct `mapBasedRepository` (without its lock). -/
structure mapBasedRepository where
  deployments : GoMap Deployment
  manifests : GoMap (GoMap Manifest)
  instances : typeInstanceMap
  deriving DecidableEq

/-- The constructor `NewMapBasedRepository`: three empty maps. -/
def NewMapBasedRepository : mapBasedRepository :=
  { deployments := ∅, manifests := ∅, instances := ∅ }

/-- The method `ListDeployments`: every stored deployment, tombstoned ones
included, in map order.  It never fails. -/
def ListDeployments (r : mapBasedRepository) : List Deployment :=
  r.deployments.entries.map (fun e => e.2)

/-- The method `GetDeployment`: plain lookup in the deployment map. -/
def GetDeployment (r : mapBasedRepository) (name : String) :
    Except RepoError Deployment :=
  match r.deployments.lookup name with
  | none => .error (.deploymentNotFound name)
  | some d => .ok d

/-- The method `GetValidDeployment`: `GetDeployment`, then a check that the
stored status is not `DeletedStatus`. -/
def GetValidDeployment (r : mapBasedRepository) (name : String) :
    Except RepoError Deployment :=
  match GetDeployment r name with
  | .error err => .error err
  | .ok d =>
    if d.State.Status = DeletedStatus then
      .error (.deploymentDeleted name)
    else
      .ok d

/-- The method `SetDeploymentState`. -/
def SetDeploymentState (r : mapBasedRepository) (name : String)
    (state : DeploymentState) (now : Time) :
    Except RepoError Unit × mapBasedRepository :=
  match GetValidDeployment r name with
  | .error err => (.error err, r)
  | .ok d =>
    let d1 := { d with State := state, ModifiedAt := now }
    (.ok (), { r with deployments := r.deployments.insert name d1 })

/-- The method `CreateDeployment`.  The error of `GetValidDeployment` is
dropped (`exists, _ := ...`): only a valid deployment of that name makes the
call fail. -/
def CreateDeployment (r : mapBasedRepository) (name : String) (now : Time) :
    Except RepoError Deployment × mapBasedRepository :=
  match GetValidDeployment r name with
  | .ok _ => (.error (.deploymentExists name), r)
  | .error _ =>
    let d := { NewDeployment name now with DeployedAt := now }
    (.ok d, { r with deployments := r.deployments.insert name d })

/-- The helper `listManifestsForDeployment`: the manifest collection of the
deployment name, created empty and stored when there is none.  Its error
result is always nil. -/
def listManifestsForDeployment (r : mapBasedRepository) (deploymentName : String) :
    Except RepoError (GoMap Manifest) × mapBasedRepository :=
  match r.manifests.lookup deploymentName with
  | some l => (.ok l, r)
  | none =>
    let l : GoMap Manifest := ∅
    (.ok l, { r with manifests := r.manifests.insert deploymentName l })

/-- The method `AddManifest`.  The collection `l` is the map stored under the
deployment name, so `l[manifest.Name] = manifest` writes into the repository. -/
def AddManifest (r : mapBasedRepository) (deploymentName : String) (manifest : Manifest) :
    Except RepoError Unit × mapBasedRepository :=
  match listManifestsForDeployment r deploymentName with
  | (.error err, r1) => (.error err, r1)
  | (.ok l, r1) =>
    if (l.lookup manifest.Name).isSome then
      (.error (.manifestExists manifest.Name deploymentName), r1)
    else
      match GetValidDeployment r1 deploymentName with
      | .error err => (.error err, r1)
      | .ok d =>
        let d1 := { d with LatestManifest := manifest.Name }
        (.ok (),
          { r1 with
            manifests := r1.manifests.insert deploymentName (l.insert manifest.Name manifest)
            deployments := r1.deployments.insert deploymentName d1 })

/-- The method `SetManifest`. -/
def SetManifest (r : mapBasedRepository) (deploymentName : String) (manifest : Manifest) :
    Except RepoError Unit × mapBasedRepository :=
  match listManifestsForDeployment r deploymentName with
  | (.error err, r1) => (.error err, r1)
  | (.ok l, r1) =>
    (.ok (),
      { r1 with
        manifests := r1.manifests.insert deploymentName (l.insert manifest.Name manifest) })

/-- The method `DeleteDeployment`. -/
def DeleteDeployment (r : mapBasedRepository) (name : String) (forget : Bool) (now : Time) :
    Except RepoError Deployment × mapBasedRepository :=
  match GetValidDeployment r name with
  | .error err => (.error err, r)
  | .ok d =>
    if !forget then
      let d1 := { d with DeletedAt := now, State := { Status := DeletedStatus, Payload := [] } }
      (.ok d1, { r with deployments := r.deployments.insert name d1 })
    else
      (.ok { d with LatestManifest := "" },
        { r with
          deployments := r.deployments.erase name
          manifests := r.manifests.erase name })

/-- The method `ListManifests`. -/
def ListManifests (r : mapBasedRepository) (deploymentName : String) :
    Except RepoError (GoMap Manifest) × mapBasedRepository :=
  match GetValidDeployment r deploymentName with
  | .error err => (.error err, r)
  | .ok _ => listManifestsForDeployment r deploymentName

/-- The helper `getManifestForDeployment`. -/
def getManifestForDeployment (r : mapBasedRepository) (deploymentName manifestName : String) :
    Except RepoError Manifest × mapBasedRepository :=
  match listManifestsForDeployment r deploymentName with
  | (.error err, r1) => (.error err, r1)
  | (.ok l, r1) =>
    match l.lookup manifestName with
    | none => (.error (.manifestNotFound manifestName deploymentName), r1)
    | some m => (.ok m, r1)

/-- The method `GetManifest`. -/
def GetManifest (r : mapBasedRepository) (deploymentName manifestName : String) :
    Except RepoError Manifest × mapBasedRepository :=
  match GetValidDeployment r deploymentName with
  | .error err => (.error err, r)
  | .ok _ => getManifestForDeployment r deploymentName manifestName

/-- The method `GetLatestManifest`. -/
def GetLatestManifest (r : mapBasedRepository) (deploymentName : String) :
    Except RepoError Manifest × mapBasedRepository :=
  match GetValidDeployment r deploymentName with
  | .error err => (.error err, r)
  | .ok d => getManifestForDeployment r deploymentName d.LatestManifest

/-- The method `ListTypes`: the keys of the type-instance map. -/
def ListTypes (r : mapBasedRepository) : List String :=
  r.instances.keys

/-- The method `GetTypeInstances`: the instances of every deployment bucket
under every type `t` with `t == typeName || typeName == "all"`. -/
def GetTypeInstances (r : mapBasedRepository) (typeName : String) : List TypeInstance :=
  r.instances.entries.flatMap (fun e =>
    if e.1 = typeName ∨ typeName = "all" then
      e.2.entries.flatMap (fun b => b.2)
    else
      [])

/-- The body of the loop of `ClearTypeInstances`, for one entry `t, dMap` of the
type-instance map: `delete(dMap, deploymentName)`, then `delete(r.instances, t)`
when `len(dMap) == 0`; `acc` is the type-instance map so far. -/
def clearTypeInstancesBody (deploymentName : String) (acc : typeInstanceMap)
    (e : Sigma (fun _ : String => deploymentTypeInstanceMap)) : typeInstanceMap :=
  let dMap := e.2.erase deploymentName
  if dMap.entries.length = 0 then acc.erase e.1 else acc.insert e.1 dMap

/-- The method `ClearTypeInstances`: ranges over the types, deletes the
bucket of the deployment from each inner map and deletes the type when its
inner map has become empty. -/
def ClearTypeInstances (r : mapBasedRepository) (deploymentName : String) :
    mapBasedRepository :=
  { r with
    instances :=
      r.instances.entries.foldl (clearTypeInstancesBody deploymentName) r.instances }

/-- The body of the loop of `SetTypeInstances`, for one entry `t, is` of the
argument map: the inner map of `t` is created when `r.instances[t] == nil`, then
`r.instances[t][deploymentName] = is`; `acc` is the type-instance map so far. -/
def setTypeInstancesBody (deploymentName : String) (acc : typeInstanceMap)
    (e : Sigma (fun _ : String => List TypeInstance)) : typeInstanceMap :=
  let inner : deploymentTypeInstanceMap :=
    match acc.lookup e.1 with
    | none => ∅
    | some dMap => dMap
  acc.insert e.1 (inner.insert deploymentName e.2)

/-- The method `SetTypeInstances`: for each type of the argument map, the
bucket of the deployment under that type is set to the given list; the inner
map of the type is created when there is none. -/
def SetTypeInstances (r : mapBasedRepository) (deploymentName : String)
    (instances : GoMap (List TypeInstance)) : mapBasedRepository :=
  { r with
    instances :=
      instances.entries.foldl (setTypeInstancesBody deploymentName) r.instances }

/-- The manifest collection stored for a deployment name, empty when there is
none: what `listManifestsForDeployment` returns. -/
def manifestsOf (r : mapBasedRepository) (deploymentName : String) : GoMap Manifest :=
  match r.manifests.lookup deploymentName with
  | some l => l
  | none => ∅

/-- Example store: the empty store after `CreateDeployment("a")`. -/
def storeWithA : mapBasedRepository :=
  (CreateDeployment NewMapBasedRepository "a" 1).2

/-- Example store: `storeWithA` after `DeleteDeployment("a", forget=false)`,
so that "a" is tombstoned. -/
def storeWithTombstoneA : mapBasedRepository :=
  (DeleteDeployment storeWithA "a" false 2).2

/-- Example manifest named "v1". -/
def manifestV1 : Manifest := { Name := "v1", Content := "first" }

/-- Example manifest whose name is the empty string. -/
def manifestUnnamed : Manifest := { Name := "", Content := "anonymous" }

/-- Example manifest named "v2". -/
def manifestV2 : Manifest := { Name := "v2", Content := "second" }

/-- Example store: `storeWithA` after `AddManifest("a", v1)`. -/
def storeWithAV1 : mapBasedRepository :=
  (AddManifest storeWithA "a" manifestV1).2

/-- The record stored for "a" in `storeWithAV1`. -/
def deploymentAV1 : Deployment :=
  { NewDeployment "a" 1 with DeployedAt := 1, LatestManifest := "v1" }

/-- Example store: "a" was created, given the manifest "v1", and then deleted
without forgetting, so that "a" is a tombstone with a manifest. -/
def storeWithTombstoneAV1 : mapBasedRepository :=
  (DeleteDeployment (AddManifest storeWithA "a" manifestV1).2 "a" false 2).2

/-- A call of one of the eight methods that can return an error, with its
arguments. -/
inductive FallibleCall where
  | createDeployment (name : String) (now : Time)
  | setDeploymentState (name : String) (state : DeploymentState) (now : Time)
  | deleteDeployment (name : String) (forget : Bool) (now : Time)
  | addManifest (deploymentName : String) (manifest : Manifest)
  | setManifest (deploymentName : String) (manifest : Manifest)
  | listManifests (deploymentName : String)
  | getManifest (deploymentName manifestName : String)
  | getLatestManifest (deploymentName : String)
  deriving DecidableEq

/-- The error a result carries, if it is one. -/
def errorOf {α : Type} : Except RepoError α → Option RepoError
  | .error err => some err
  | .ok _ => none

/-- Running a call: the error it returns, if any, and the store after it. -/
def FallibleCall.run (c : FallibleCall) (r : mapBasedRepository) :
    Option RepoError × mapBasedRepository :=
  match c with
  | .createDeployment name now =>
    (errorOf (CreateDeployment r name now).1, (CreateDeployment r name now).2)
  | .setDeploymentState name state now =>
    (errorOf (SetDeploymentState r name state now).1, (SetDeploymentState r name state now).2)
  | .deleteDeployment name forget now =>
    (errorOf (DeleteDeployment r name forget now).1, (DeleteDeployment r name forget now).2)
  | .addManifest deploymentName manifest =>
    (errorOf (AddManifest r deploymentName manifest).1, (AddManifest r deploymentName manifest).2)
  | .setManifest deploymentName manifest =>
    (errorOf (SetManifest r deploymentName manifest).1, (SetManifest r deploymentName manifest).2)
  | .listManifests deploymentName =>
    (errorOf (ListManifests r deploymentName).1, (ListManifests r deploymentName).2)
  | .getManifest deploymentName manifestName =>
    (errorOf (GetManifest r deploymentName manifestName).1,
      (GetManifest r deploymentName manifestName).2)
  | .getLatestManifest deploymentName =>
    (errorOf (GetLatestManifest r deploymentName).1, (GetLatestManifest r deploymentName).2)

/-- The instance list a type-instance map holds for a type name and a
deployment name, `m[typeName][deploymentName]`, when both keys are present. -/
def bucketIn (m : typeInstanceMap) (typeName deploymentName : String) :
    Option (List TypeInstance) :=
  (m.lookup typeName).bind (fun dMap => dMap.lookup deploymentName)

/-- The instance list stored for a type name and a deployment name,
`r.instances[typeName][deploymentName]`, when both keys are present. -/
def bucketOf (r : mapBasedRepository) (typeName deploymentName : String) :
    Option (List TypeInstance) :=
  bucketIn r.instances typeName deploymentName

/-- Example type instance "i1". -/
def instanceOne : TypeInstance := { Name := "i1", Path := "p1" }

/-- Example type instance "i2". -/
def instanceTwo : TypeInstance := { Name := "i2", Path := "p2" }

/-- Example store: the empty store after
`SetTypeInstances("d", map["T"] = [i1, i2])`. -/
def storeWithTypeT : mapBasedRepository :=
  SetTypeInstances NewMapBasedRepository "d" (AList.singleton "T" [instanceOne, instanceTwo])

/-- Example argument of `SetTypeInstances`: the list `[i2]` for type "T" and the
list `[i1]` for type "U". -/
def instancesForTU : GoMap (List TypeInstance) :=
  (AList.singleton "U" [instanceOne]).insert "T" [instanceTwo]

/-- Example store: the empty store after `SetTypeInstances("d", map["T"] = [])`,
an empty instance list. -/
def storeWithEmptyTypeT : mapBasedRepository :=
  SetTypeInstances NewMapBasedRepository "d" (AList.singleton "T" [])

/-- Example store: "a" was created, given a manifest whose name is the empty
string, and then deleted without forgetting. -/
def storeWithTombstoneUnnamed : mapBasedRepository :=
  (DeleteDeployment (AddManifest storeWithA "a" manifestUnnamed).2 "a" false 2).2

/-- The store states reachable from the empty store by calls of the
repository's methods.  The methods that only read (`ListDeployments`,
`GetDeployment`, `GetValidDeployment`, `ListTypes`, `GetTypeInstances`) leave the
store as it is and need no rule of their own; the eight methods that return an
error are the calls of `FallibleCall`, taken with the store they leave behind
whether they succeed or fail. -/
inductive Reachable : mapBasedRepository → Prop where
  | empty : Reachable NewMapBasedRepository
  | call (r : mapBasedRepository) (c : FallibleCall) :
      Reachable r → Reachable (c.run r).2
  | clearTypeInstances (r : mapBasedRepository) (deploymentName : String) :
      Reachable r → Reachable (ClearTypeInstances r deploymentName)
  | setTypeInstances (r : mapBasedRepository) (deploymentName : String)
      (instances : GoMap (List TypeInstance)) :
      Reachable r → Reachable (SetTypeInstances r deploymentName instances)

/-- The latest-pointer invariant of the data model: every stored deployment
record whose `LatestManifest` is not the empty string has a manifest of that name
in the manifest collection stored under the deployment's own name. -/
def latestPointerInvariant (r : mapBasedRepository) : Prop :=
  ∀ n d, r.deployments.lookup n = some d → d.LatestManifest ≠ "" →
    ∃ l m, r.manifests.lookup n = some l ∧ l.lookup d.LatestManifest = some m

/-! ## Lookup lemmas -/

theorem GetDeployment_ok_iff (r : mapBasedRepository) (n : String) (d : Deployment) :
    GetDeployment r n = .ok d ↔ r.deployments.lookup n = some d := by
  unfold GetDeployment
  cases h : r.deployments.lookup n with
  | none => simp
  | some d0 => simp

theorem GetDeployment_notFound_iff (r : mapBasedRepository) (n : String) :
    GetDeployment r n = .error (.deploymentNotFound n) ↔ r.deployments.lookup n = none := by
  unfold GetDeployment
  cases h : r.deployments.lookup n with
  | none => simp
  | some d0 => simp

theorem GetValidDeployment_ok_iff (r : mapBasedRepository) (n : String) (d : Deployment) :
    GetValidDeployment r n = .ok d ↔
      (r.deployments.lookup n = some d ∧ d.State.Status ≠ DeletedStatus) := by
  unfold GetValidDeployment GetDeployment
  cases h : r.deployments.lookup n with
  | none => simp
  | some d0 =>
    by_cases hs : d0.State.Status = DeletedStatus
    · simp only [hs, if_true, Option.some.injEq, false_iff, not_and, not_not, reduceCtorEq]
      rintro rfl
      exact hs
    · simp only [hs, if_false, Except.ok.injEq, Option.some.injEq]
      constructor
      · rintro rfl
        exact ⟨rfl, hs⟩
      · rintro ⟨rfl, _⟩
        rfl

theorem GetValidDeployment_notFound_iff (r : mapBasedRepository) (n : String) :
    GetValidDeployment r n = .error (.deploymentNotFound n) ↔
      r.deployments.lookup n = none := by
  unfold GetValidDeployment GetDeployment
  cases h : r.deployments.lookup n with
  | none => simp
  | some d0 =>
    by_cases hs : d0.State.Status = DeletedStatus <;> simp [hs]

theorem GetValidDeployment_deleted_iff (r : mapBasedRepository) (n : String) :
    GetValidDeployment r n = .error (.deploymentDeleted n) ↔
      ∃ d, r.deployments.lookup n = some d ∧ d.State.Status = DeletedStatus := by
  unfold GetValidDeployment GetDeployment
  cases h : r.deployments.lookup n with
  | none => simp
  | some d0 =>
    by_cases hs : d0.State.Status = DeletedStatus <;> simp [hs]

/-- The error of `GetValidDeployment` is one of the two deployment errors, for
the name asked. -/
theorem GetValidDeployment_error_cases (r : mapBasedRepository) (n : String) (e : RepoError)
    (h : GetValidDeployment r n = .error e) :
    (e = .deploymentNotFound n ∧ r.deployments.lookup n = none) ∨
    (e = .deploymentDeleted n ∧
      ∃ d, r.deployments.lookup n = some d ∧ d.State.Status = DeletedStatus) := by
  unfold GetValidDeployment GetDeployment at h
  cases hl : r.deployments.lookup n with
  | none =>
    rw [hl] at h
    simp only [Except.error.injEq] at h
    exact Or.inl ⟨h.symm, rfl⟩
  | some d0 =>
    rw [hl] at h
    by_cases hs : d0.State.Status = DeletedStatus
    · simp only [hs, if_true, Except.error.injEq] at h
      exact Or.inr ⟨h.symm, d0, rfl, hs⟩
    · simp [hs] at h

/-! ## The operations on a name that is not valid, and on a valid one -/

theorem SetDeploymentState_of_error (r : mapBasedRepository) (n : String) (e : RepoError)
    (st : DeploymentState) (now : Time) (h : GetValidDeployment r n = .error e) :
    SetDeploymentState r n st now = (.error e, r) := by
  unfold SetDeploymentState
  rw [h]

theorem DeleteDeployment_of_error (r : mapBasedRepository) (n : String) (e : RepoError)
    (forget : Bool) (now : Time) (h : GetValidDeployment r n = .error e) :
    DeleteDeployment r n forget now = (.error e, r) := by
  unfold DeleteDeployment
  rw [h]

theorem ListManifests_of_error (r : mapBasedRepository) (n : String) (e : RepoError)
    (h : GetValidDeployment r n = .error e) :
    ListManifests r n = (.error e, r) := by
  unfold ListManifests
  rw [h]

theorem GetManifest_of_error (r : mapBasedRepository) (n x : String) (e : RepoError)
    (h : GetValidDeployment r n = .error e) :
    GetManifest r n x = (.error e, r) := by
  unfold GetManifest
  rw [h]

theorem GetLatestManifest_of_error (r : mapBasedRepository) (n : String) (e : RepoError)
    (h : GetValidDeployment r n = .error e) :
    GetLatestManifest r n = (.error e, r) := by
  unfold GetLatestManifest
  rw [h]

theorem CreateDeployment_of_error (r : mapBasedRepository) (n : String) (e : RepoError)
    (now : Time) (h : GetValidDeployment r n = .error e) :
    CreateDeployment r n now =
      (.ok { NewDeployment n now with DeployedAt := now },
        { r with
          deployments :=
            r.deployments.insert n { NewDeployment n now with DeployedAt := now } }) := by
  unfold CreateDeployment
  rw [h]

theorem CreateDeployment_of_ok (r : mapBasedRepository) (n : String) (d : Deployment)
    (now : Time) (h : GetValidDeployment r n = .ok d) :
    CreateDeployment r n now = (.error (.deploymentExists n), r) := by
  unfold CreateDeployment
  rw [h]

theorem DeleteDeployment_of_ok (r : mapBasedRepository) (n : String) (d : Deployment)
    (forget : Bool) (now : Time) (h : GetValidDeployment r n = .ok d) :
    DeleteDeployment r n forget now =
      if !forget then
        (.ok { d with DeletedAt := now, State := { Status := DeletedStatus, Payload := [] } },
          { r with
            deployments := r.deployments.insert n
              { d with DeletedAt := now, State := { Status := DeletedStatus, Payload := [] } } })
      else
        (.ok { d with LatestManifest := "" },
          { r with
            deployments := r.deployments.erase n
            manifests := r.manifests.erase n }) := by
  unfold DeleteDeployment
  rw [h]

/-- A freshly allocated record is not tombstoned. -/
theorem NewDeployment_status (n : String) (now : Time) :
    (NewDeployment n now).State.Status ≠ DeletedStatus := by
  simp [NewDeployment, DeletedStatus]

/-! ## C1: the two lookups -/

/-- C1. `GetValidDeployment(n)` returns a record exactly when that record is
stored under `n` and its status is not Deleted; it fails with the not-found
error exactly when `n` is not a key, and with the different "is deleted" error
exactly when `n` is a key whose stored status is Deleted.  `GetDeployment(n)`
succeeds exactly when `n` is a key, and then returns the stored record
whatever its status. -/
theorem C1_lookup_contract (r : mapBasedRepository) (n : String) :
    (∀ d, GetValidDeployment r n = .ok d ↔
      (r.deployments.lookup n = some d ∧ d.State.Status ≠ DeletedStatus)) ∧
    (GetValidDeployment r n = .error (.deploymentNotFound n) ↔ n ∉ r.deployments) ∧
    (GetValidDeployment r n = .error (.deploymentDeleted n) ↔
      ∃ d, r.deployments.lookup n = some d ∧ d.State.Status = DeletedStatus) ∧
    RepoError.deploymentNotFound n ≠ RepoError.deploymentDeleted n ∧
    ((∃ d, GetDeployment r n = .ok d) ↔ n ∈ r.deployments) ∧
    (∀ d, GetDeployment r n = .ok d ↔ r.deployments.lookup n = some d) := by
  refine ⟨GetValidDeployment_ok_iff r n, ?_, GetValidDeployment_deleted_iff r n, ?_, ?_,
    GetDeployment_ok_iff r n⟩
  · rw [GetValidDeployment_notFound_iff, AList.lookup_eq_none]
  · intro h
    cases h
  · rw [← AList.lookup_isSome, Option.isSome_iff_exists]
    constructor
    · rintro ⟨d, hd⟩
      exact ⟨d, (GetDeployment_ok_iff r n d).1 hd⟩
    · rintro ⟨d, hd⟩
      exact ⟨d, (GetDeployment_ok_iff r n d).2 hd⟩

/-! ## C2: creating twice -/

/-- C2. If `CreateDeployment(n)` succeeds, an immediately following
`CreateDeployment(n)` fails with the already-exists error and leaves the store,
and so the record stored for `n`, unchanged. -/
theorem C2_create_twice_fails (r : mapBasedRepository) (n : String) (now now2 : Time)
    (d : Deployment) (h : (CreateDeployment r n now).1 = .ok d) :
    (CreateDeployment (CreateDeployment r n now).2 n now2).1
        = .error (.deploymentExists n) ∧
    (CreateDeployment (CreateDeployment r n now).2 n now2).2
        = (CreateDeployment r n now).2 ∧
    (CreateDeployment r n now).2.deployments.lookup n = some d ∧
    (CreateDeployment (CreateDeployment r n now).2 n now2).2.deployments.lookup n
        = some d := by
  cases hv : GetValidDeployment r n with
  | ok d0 =>
    rw [CreateDeployment_of_ok r n d0 now hv] at h
    cases h
  | error e =>
    rw [CreateDeployment_of_error r n e now hv] at h ⊢
    simp only [Except.ok.injEq] at h
    have hlook : (r.deployments.insert n
        { NewDeployment n now with DeployedAt := now }).lookup n = some d := by
      rw [AList.lookup_insert, h]
    have hvalid : GetValidDeployment
        { r with
          deployments :=
            r.deployments.insert n { NewDeployment n now with DeployedAt := now } } n
        = .ok d := by
      rw [GetValidDeployment_ok_iff]
      refine ⟨hlook, ?_⟩
      rw [← h]
      exact NewDeployment_status n now
    rw [CreateDeployment_of_ok _ n d now2 hvalid]
    exact ⟨rfl, rfl, hlook, hlook⟩

/-- C2, at a concrete input: creating "a" twice in the empty store. -/
theorem C2_create_twice_fails_witness :
    (CreateDeployment (CreateDeployment NewMapBasedRepository "a" 1).2 "a" 2).1
        = .error (.deploymentExists "a") ∧
    (CreateDeployment (CreateDeployment NewMapBasedRepository "a" 1).2 "a" 2).2
        = (CreateDeployment NewMapBasedRepository "a" 1).2 ∧
    (CreateDeployment NewMapBasedRepository "a" 1).2.deployments.lookup "a"
        = some { NewDeployment "a" 1 with DeployedAt := 1 } ∧
    (CreateDeployment (CreateDeployment NewMapBasedRepository "a" 1).2 "a" 2).2.deployments.lookup
        "a" = some { NewDeployment "a" 1 with DeployedAt := 1 } :=
  C2_create_twice_fails NewMapBasedRepository "a" 1 2
    { NewDeployment "a" 1 with DeployedAt := 1 } rfl

/-! ## C3: creating over a tombstone -/

/-- C3, refuted at a concrete input: in the store where "a" was created and
then deleted without forgetting, "a" is tombstoned, yet `CreateDeployment("a")`
succeeds and the record stored for "a" is no longer the tombstoned one. -/
theorem C3_tombstone_blocks_reuse_counterexample :
    (∃ d, (DeleteDeployment storeWithA "a" false 2).2.deployments.lookup "a" = some d ∧
      d.State.Status = DeletedStatus) ∧
    (CreateDeployment (DeleteDeployment storeWithA "a" false 2).2 "a" 3).1
      = .ok { NewDeployment "a" 3 with DeployedAt := 3 } ∧
    (CreateDeployment (DeleteDeployment storeWithA "a" false 2).2 "a" 3).2.deployments.lookup "a"
      ≠ (DeleteDeployment storeWithA "a" false 2).2.deployments.lookup "a" := by
  refine ⟨⟨_, rfl, rfl⟩, rfl, ?_⟩
  intro h
  have h2 := congrArg (fun o => o.map (fun d => d.CreatedAt)) h
  exact absurd h2 (by decide)

/-- C3, amended. Soft-deleted deployments do not block name reuse: when `n` is
tombstoned, `CreateDeployment(n)` succeeds, the record stored for `n` becomes the
freshly allocated one, which is valid, and the records of the other names, the
manifest map and the type-instance map are unchanged. -/
theorem C3_create_over_tombstone (r : mapBasedRepository) (n : String) (now : Time)
    (d : Deployment) (hd : r.deployments.lookup n = some d)
    (hs : d.State.Status = DeletedStatus) :
    (CreateDeployment r n now).1 = .ok { NewDeployment n now with DeployedAt := now } ∧
    (CreateDeployment r n now).2.deployments.lookup n
      = some { NewDeployment n now with DeployedAt := now } ∧
    GetValidDeployment (CreateDeployment r n now).2 n
      = .ok { NewDeployment n now with DeployedAt := now } ∧
    (∀ k, k ≠ n →
      (CreateDeployment r n now).2.deployments.lookup k = r.deployments.lookup k) ∧
    (CreateDeployment r n now).2.manifests = r.manifests ∧
    (CreateDeployment r n now).2.instances = r.instances := by
  have hv : GetValidDeployment r n = .error (.deploymentDeleted n) :=
    (GetValidDeployment_deleted_iff r n).2 ⟨d, hd, hs⟩
  rw [CreateDeployment_of_error r n _ now hv]
  refine ⟨rfl, AList.lookup_insert _, ?_, ?_, rfl, rfl⟩
  · rw [GetValidDeployment_ok_iff]
    exact ⟨AList.lookup_insert _, NewDeployment_status n now⟩
  · intro k hk
    exact AList.lookup_insert_ne hk

/-- C3 amended, at a concrete input: re-creating the tombstoned "a". -/
theorem C3_create_over_tombstone_witness :
    (CreateDeployment storeWithTombstoneA "a" 3).1
      = .ok { NewDeployment "a" 3 with DeployedAt := 3 } ∧
    (CreateDeployment storeWithTombstoneA "a" 3).2.deployments.lookup "a"
      = some { NewDeployment "a" 3 with DeployedAt := 3 } ∧
    GetValidDeployment (CreateDeployment storeWithTombstoneA "a" 3).2 "a"
      = .ok { NewDeployment "a" 3 with DeployedAt := 3 } ∧
    (∀ k, k ≠ "a" →
      (CreateDeployment storeWithTombstoneA "a" 3).2.deployments.lookup k
        = storeWithTombstoneA.deployments.lookup k) ∧
    (CreateDeployment storeWithTombstoneA "a" 3).2.manifests = storeWithTombstoneA.manifests ∧
    (CreateDeployment storeWithTombstoneA "a" 3).2.instances = storeWithTombstoneA.instances :=
  C3_create_over_tombstone storeWithTombstoneA "a" 3
    { NewDeployment "a" 1 with
      DeployedAt := 1, DeletedAt := 2, State := { Status := DeletedStatus, Payload := [] } }
    rfl rfl

/-! ## C4: lookups after a delete -/

/-- C4. For a valid deployment `n`: `DeleteDeployment(n, forget=false)` succeeds,
after it `GetValidDeployment(n)` fails with the "is deleted" error while
`GetDeployment(n)` still succeeds; `DeleteDeployment(n, forget=true)` succeeds and
after it `GetDeployment(n)` fails with the not-found error. -/
theorem C4_lookup_after_delete (r : mapBasedRepository) (n : String) (d : Deployment)
    (now : Time) (h : GetValidDeployment r n = .ok d) :
    (∃ d1, (DeleteDeployment r n false now).1 = .ok d1) ∧
    GetValidDeployment (DeleteDeployment r n false now).2 n
      = .error (.deploymentDeleted n) ∧
    (∃ d1, GetDeployment (DeleteDeployment r n false now).2 n = .ok d1) ∧
    (∃ d2, (DeleteDeployment r n true now).1 = .ok d2) ∧
    GetDeployment (DeleteDeployment r n true now).2 n
      = .error (.deploymentNotFound n) := by
  rw [DeleteDeployment_of_ok r n d false now h, DeleteDeployment_of_ok r n d true now h]
  refine ⟨⟨_, rfl⟩, ?_, ?_, ⟨_, rfl⟩, ?_⟩
  · rw [GetValidDeployment_deleted_iff]
    exact ⟨_, AList.lookup_insert _, rfl⟩
  · exact ⟨_, (GetDeployment_ok_iff _ n _).2 (AList.lookup_insert _)⟩
  · rw [GetDeployment_notFound_iff]
    exact AList.lookup_erase n _

/-- C4, at a concrete input: deleting the valid deployment "a". -/
theorem C4_lookup_after_delete_witness :
    (∃ d1, (DeleteDeployment storeWithA "a" false 2).1 = .ok d1) ∧
    GetValidDeployment (DeleteDeployment storeWithA "a" false 2).2 "a"
      = .error (.deploymentDeleted "a") ∧
    (∃ d1, GetDeployment (DeleteDeployment storeWithA "a" false 2).2 "a" = .ok d1) ∧
    (∃ d2, (DeleteDeployment storeWithA "a" true 2).1 = .ok d2) ∧
    GetDeployment (DeleteDeployment storeWithA "a" true 2).2 "a"
      = .error (.deploymentNotFound "a") :=
  C4_lookup_after_delete storeWithA "a" { NewDeployment "a" 1 with DeployedAt := 1 } 2 rfl

/-! ## C5: forgetting a tombstone -/

/-- C5, refuted at a concrete input: "a" is valid in `storeWithA`; after
`DeleteDeployment("a", forget=false)` the call `DeleteDeployment("a", forget=true)`
fails with the "is deleted" error, `GetDeployment("a")` still returns the
tombstoned record, and `ListManifests("a")` fails with the "is deleted" error, not
with not-found. -/
theorem C5_forget_tombstone_counterexample :
    GetValidDeployment storeWithA "a" = .ok { NewDeployment "a" 1 with DeployedAt := 1 } ∧
    (DeleteDeployment (DeleteDeployment storeWithA "a" false 2).2 "a" true 3).1
      = .error (.deploymentDeleted "a") ∧
    GetDeployment (DeleteDeployment (DeleteDeployment storeWithA "a" false 2).2 "a" true 3).2 "a"
      = .ok { NewDeployment "a" 1 with
              DeployedAt := 1, DeletedAt := 2
              State := { Status := DeletedStatus, Payload := [] } } ∧
    (ListManifests (DeleteDeployment (DeleteDeployment storeWithA "a" false 2).2 "a" true 3).2
        "a").1 = .error (.deploymentDeleted "a") ∧
    RepoError.deploymentDeleted "a" ≠ RepoError.deploymentNotFound "a" := by
  refine ⟨rfl, rfl, rfl, rfl, ?_⟩
  intro h
  cases h

/-- C5, amended. A tombstoned deployment cannot be forgotten through
`DeleteDeployment`: for a valid `n`, after `DeleteDeployment(n, forget=false)` a
following `DeleteDeployment(n, forget=true)` fails with the "is deleted" error and
leaves the store as it was, so `GetDeployment(n)` still succeeds, and
`ListManifests(n)` fails with the "is deleted" error. -/
theorem C5_forget_tombstone_fails (r : mapBasedRepository) (n : String) (d : Deployment)
    (now now2 : Time) (h : GetValidDeployment r n = .ok d) :
    DeleteDeployment (DeleteDeployment r n false now).2 n true now2
      = (.error (.deploymentDeleted n), (DeleteDeployment r n false now).2) ∧
    (∃ d1, GetDeployment
      (DeleteDeployment (DeleteDeployment r n false now).2 n true now2).2 n = .ok d1) ∧
    (ListManifests (DeleteDeployment (DeleteDeployment r n false now).2 n true now2).2 n).1
      = .error (.deploymentDeleted n) := by
  have hdel : GetValidDeployment (DeleteDeployment r n false now).2 n
      = .error (.deploymentDeleted n) := by
    rw [DeleteDeployment_of_ok r n d false now h, GetValidDeployment_deleted_iff]
    exact ⟨_, AList.lookup_insert _, rfl⟩
  rw [DeleteDeployment_of_error _ n _ true now2 hdel, ListManifests_of_error _ n _ hdel]
  refine ⟨rfl, ?_, rfl⟩
  rw [DeleteDeployment_of_ok r n d false now h]
  exact ⟨_, (GetDeployment_ok_iff _ n _).2 (AList.lookup_insert _)⟩

/-- C5 amended, at a concrete input: forgetting "a" after tombstoning it. -/
theorem C5_forget_tombstone_fails_witness :
    DeleteDeployment (DeleteDeployment storeWithA "a" false 2).2 "a" true 3
      = (.error (.deploymentDeleted "a"), (DeleteDeployment storeWithA "a" false 2).2) ∧
    (∃ d1, GetDeployment
      (DeleteDeployment (DeleteDeployment storeWithA "a" false 2).2 "a" true 3).2 "a"
        = .ok d1) ∧
    (ListManifests (DeleteDeployment (DeleteDeployment storeWithA "a" false 2).2 "a" true 3).2
      "a").1 = .error (.deploymentDeleted "a") :=
  C5_forget_tombstone_fails storeWithA "a" { NewDeployment "a" 1 with DeployedAt := 1 } 2 3 rfl

/-! ## The manifest collection of a deployment -/

theorem manifestsOf_of_lookup (r : mapBasedRepository) (n : String) (l : GoMap Manifest)
    (h : r.manifests.lookup n = some l) : manifestsOf r n = l := by
  unfold manifestsOf
  rw [h]

theorem listManifestsForDeployment_of_lookup (r : mapBasedRepository) (n : String)
    (l : GoMap Manifest) (h : r.manifests.lookup n = some l) :
    listManifestsForDeployment r n = (.ok l, r) := by
  unfold listManifestsForDeployment
  rw [h]

theorem listManifestsForDeployment_of_none (r : mapBasedRepository) (n : String)
    (h : r.manifests.lookup n = none) :
    listManifestsForDeployment r n
      = (.ok ∅, { r with manifests := r.manifests.insert n ∅ }) := by
  unfold listManifestsForDeployment
  rw [h]

theorem listManifestsForDeployment_fst (r : mapBasedRepository) (n : String) :
    (listManifestsForDeployment r n).1 = .ok (manifestsOf r n) := by
  unfold listManifestsForDeployment manifestsOf
  cases r.manifests.lookup n <;> rfl

theorem listManifestsForDeployment_deployments (r : mapBasedRepository) (n : String) :
    (listManifestsForDeployment r n).2.deployments = r.deployments := by
  unfold listManifestsForDeployment
  cases r.manifests.lookup n <;> rfl

theorem listManifestsForDeployment_instances (r : mapBasedRepository) (n : String) :
    (listManifestsForDeployment r n).2.instances = r.instances := by
  unfold listManifestsForDeployment
  cases r.manifests.lookup n <;> rfl

/-- The validity check reads the deployment map only. -/
theorem GetValidDeployment_congr (r r2 : mapBasedRepository) (n : String)
    (h : r2.deployments = r.deployments) :
    GetValidDeployment r2 n = GetValidDeployment r n := by
  unfold GetValidDeployment GetDeployment
  rw [h]

theorem getManifestForDeployment_of_lookup (r : mapBasedRepository) (n x : String)
    (l : GoMap Manifest) (h : r.manifests.lookup n = some l) :
    getManifestForDeployment r n x =
      match l.lookup x with
      | none => (.error (.manifestNotFound x n), r)
      | some m => (.ok m, r) := by
  unfold getManifestForDeployment
  rw [listManifestsForDeployment_of_lookup r n l h]

theorem getManifestForDeployment_fst (r : mapBasedRepository) (n x : String) :
    (getManifestForDeployment r n x).1 =
      match (manifestsOf r n).lookup x with
      | none => .error (.manifestNotFound x n)
      | some m => .ok m := by
  unfold getManifestForDeployment listManifestsForDeployment manifestsOf
  cases r.manifests.lookup n with
  | none => rfl
  | some l =>
    simp only
    cases l.lookup x <;> rfl

theorem getManifestForDeployment_snd (r : mapBasedRepository) (n x : String) :
    (getManifestForDeployment r n x).2 = (listManifestsForDeployment r n).2 := by
  unfold getManifestForDeployment listManifestsForDeployment
  cases r.manifests.lookup n with
  | none => rfl
  | some l =>
    simp only
    cases l.lookup x <;> rfl

theorem AddManifest_of_exists (r : mapBasedRepository) (n : String) (m : Manifest)
    (h : ((manifestsOf r n).lookup m.Name).isSome = true) :
    AddManifest r n m
      = (.error (.manifestExists m.Name n), (listManifestsForDeployment r n).2) := by
  unfold AddManifest listManifestsForDeployment
  unfold manifestsOf at h
  cases hl : r.manifests.lookup n with
  | none =>
    rw [hl] at h
    simp at h
  | some l =>
    rw [hl] at h
    simp only [h, if_true]

theorem AddManifest_of_error (r : mapBasedRepository) (n : String) (m : Manifest)
    (e : RepoError) (h : (manifestsOf r n).lookup m.Name = none)
    (hv : GetValidDeployment r n = .error e) :
    AddManifest r n m = (.error e, (listManifestsForDeployment r n).2) := by
  unfold AddManifest listManifestsForDeployment
  unfold manifestsOf at h
  cases hl : r.manifests.lookup n with
  | none =>
    have hv2 : GetValidDeployment { r with manifests := r.manifests.insert n ∅ } n
        = .error e :=
      (GetValidDeployment_congr r _ n rfl).trans hv
    simp [hv2]
  | some l =>
    rw [hl] at h
    simp [h, hv]

theorem AddManifest_of_ok (r : mapBasedRepository) (n : String) (m : Manifest)
    (d : Deployment) (h : (manifestsOf r n).lookup m.Name = none)
    (hv : GetValidDeployment r n = .ok d) :
    AddManifest r n m =
      (.ok (),
        { deployments := r.deployments.insert n { d with LatestManifest := m.Name }
          manifests :=
            (listManifestsForDeployment r n).2.manifests.insert n
              ((manifestsOf r n).insert m.Name m)
          instances := r.instances }) := by
  unfold AddManifest listManifestsForDeployment manifestsOf
  unfold manifestsOf at h
  cases hl : r.manifests.lookup n with
  | none =>
    have hv2 : GetValidDeployment { r with manifests := r.manifests.insert n ∅ } n
        = .ok d :=
      (GetValidDeployment_congr r _ n rfl).trans hv
    simp [hv2]
  | some l =>
    rw [hl] at h
    simp [h, hv]

theorem SetManifest_eq (r : mapBasedRepository) (n : String) (m : Manifest) :
    SetManifest r n m =
      (.ok (),
        { deployments := r.deployments
          manifests :=
            (listManifestsForDeployment r n).2.manifests.insert n
              ((manifestsOf r n).insert m.Name m)
          instances := r.instances }) := by
  unfold SetManifest listManifestsForDeployment manifestsOf
  cases hl : r.manifests.lookup n <;> rfl

theorem GetManifest_fst_of_valid (r : mapBasedRepository) (n x : String) (d : Deployment)
    (hv : GetValidDeployment r n = .ok d) :
    (GetManifest r n x).1 =
      match (manifestsOf r n).lookup x with
      | none => .error (.manifestNotFound x n)
      | some m => .ok m := by
  unfold GetManifest
  rw [hv]
  exact getManifestForDeployment_fst r n x

theorem GetLatestManifest_fst_of_valid (r : mapBasedRepository) (n : String) (d : Deployment)
    (hv : GetValidDeployment r n = .ok d) :
    (GetLatestManifest r n).1 =
      match (manifestsOf r n).lookup d.LatestManifest with
      | none => .error (.manifestNotFound d.LatestManifest n)
      | some m => .ok m := by
  unfold GetLatestManifest
  rw [hv]
  exact getManifestForDeployment_fst r n d.LatestManifest

theorem manifestsOf_lookup_none_of_fresh (r : mapBasedRepository) (n x : String)
    (h : ∀ l, r.manifests.lookup n = some l → l.lookup x = none) :
    (manifestsOf r n).lookup x = none := by
  unfold manifestsOf
  cases hl : r.manifests.lookup n with
  | none => exact AList.lookup_empty x
  | some l => exact h l hl

/-! ## C6: adding a manifest -/

/-- C6. For a valid deployment `dn` whose manifest collection has no manifest
named `m.Name`: `AddManifest(dn, m)` succeeds; afterwards `GetManifest(dn, m.Name)`
and `GetLatestManifest(dn)` both return `m` and the stored record of `dn` has
`LatestManifest = m.Name`; a further `AddManifest(dn, m2)` with the same manifest
name fails with the already-exists error and leaves the store, so the stored
manifest and the latest pointer, as they were. -/
theorem C6_add_manifest (r : mapBasedRepository) (dn : String) (m : Manifest)
    (d : Deployment) (hv : GetValidDeployment r dn = .ok d)
    (hfresh : ∀ l, r.manifests.lookup dn = some l → l.lookup m.Name = none) :
    (AddManifest r dn m).1 = .ok () ∧
    (GetManifest (AddManifest r dn m).2 dn m.Name).1 = .ok m ∧
    (GetLatestManifest (AddManifest r dn m).2 dn).1 = .ok m ∧
    (AddManifest r dn m).2.deployments.lookup dn
      = some { d with LatestManifest := m.Name } ∧
    (∀ m2 : Manifest, m2.Name = m.Name →
      (AddManifest (AddManifest r dn m).2 dn m2).1 = .error (.manifestExists m.Name dn) ∧
      (AddManifest (AddManifest r dn m).2 dn m2).2 = (AddManifest r dn m).2) := by
  have hf := manifestsOf_lookup_none_of_fresh r dn m.Name hfresh
  have hstatus : d.State.Status ≠ DeletedStatus := ((GetValidDeployment_ok_iff r dn d).1 hv).2
  rw [AddManifest_of_ok r dn m d hf hv]
  generalize hr2 :
    ({ deployments := r.deployments.insert dn { d with LatestManifest := m.Name }
       manifests :=
        (listManifestsForDeployment r dn).2.manifests.insert dn
          ((manifestsOf r dn).insert m.Name m)
       instances := r.instances } : mapBasedRepository) = r2
  have hdep : r2.deployments.lookup dn = some { d with LatestManifest := m.Name } := by
    rw [← hr2]
    exact AList.lookup_insert _
  have hman : r2.manifests.lookup dn = some ((manifestsOf r dn).insert m.Name m) := by
    rw [← hr2]
    exact AList.lookup_insert _
  have hv2 : GetValidDeployment r2 dn = .ok { d with LatestManifest := m.Name } :=
    (GetValidDeployment_ok_iff r2 dn _).2 ⟨hdep, hstatus⟩
  have hof : manifestsOf r2 dn = (manifestsOf r dn).insert m.Name m :=
    manifestsOf_of_lookup r2 dn _ hman
  have hget : (manifestsOf r2 dn).lookup m.Name = some m := by
    rw [hof]
    exact AList.lookup_insert _
  refine ⟨rfl, ?_, ?_, hdep, ?_⟩
  · rw [GetManifest_fst_of_valid r2 dn m.Name _ hv2, hget]
  · rw [GetLatestManifest_fst_of_valid r2 dn _ hv2]
    simp only [hget]
  · intro m2 hname
    have hex : ((manifestsOf r2 dn).lookup m2.Name).isSome = true := by
      rw [hname, hget]
      rfl
    rw [AddManifest_of_exists r2 dn m2 hex, hname,
      listManifestsForDeployment_of_lookup r2 dn _ hman]
    exact ⟨rfl, rfl⟩

/-- C6, at a concrete input: adding the manifest "v2" to the deployment "a",
which already has the manifest "v1". -/
theorem C6_add_manifest_witness :
    (AddManifest storeWithAV1 "a" manifestV2).1 = .ok () ∧
    (GetManifest (AddManifest storeWithAV1 "a" manifestV2).2 "a" manifestV2.Name).1
      = .ok manifestV2 ∧
    (GetLatestManifest (AddManifest storeWithAV1 "a" manifestV2).2 "a").1 = .ok manifestV2 ∧
    (AddManifest storeWithAV1 "a" manifestV2).2.deployments.lookup "a"
      = some { deploymentAV1 with LatestManifest := manifestV2.Name } ∧
    (∀ m2 : Manifest, m2.Name = manifestV2.Name →
      (AddManifest (AddManifest storeWithAV1 "a" manifestV2).2 "a" m2).1
        = .error (.manifestExists manifestV2.Name "a") ∧
      (AddManifest (AddManifest storeWithAV1 "a" manifestV2).2 "a" m2).2
        = (AddManifest storeWithAV1 "a" manifestV2).2) :=
  C6_add_manifest storeWithAV1 "a" manifestV2 deploymentAV1 rfl
    (fun l hl => by
      have h0 : storeWithAV1.manifests.lookup "a"
          = some (AList.insert "v1" manifestV1 ∅) := rfl
      rw [h0] at hl
      cases hl
      rfl)

/-! ## C7: overwriting a manifest -/

/-- C7, refuted at a concrete input: "a" is a valid deployment of `storeWithA`
with no manifest collection, so no manifest named "" is in it.
`GetLatestManifest("a")` fails with not-found before `SetManifest("a", m)` for the
manifest `m` whose name is the empty string, and returns `m` after it. -/
theorem C7_set_manifest_latest_counterexample :
    GetValidDeployment storeWithA "a" = .ok { NewDeployment "a" 1 with DeployedAt := 1 } ∧
    storeWithA.manifests.lookup "a" = none ∧
    (SetManifest storeWithA "a" manifestUnnamed).1 = .ok () ∧
    (GetLatestManifest storeWithA "a").1 = .error (.manifestNotFound "" "a") ∧
    (GetLatestManifest (SetManifest storeWithA "a" manifestUnnamed).2 "a").1
      = .ok manifestUnnamed :=
  ⟨rfl, rfl, rfl, rfl, rfl⟩

/-- C7, amended. For a valid deployment `dn` and a manifest `m` whose name is not
in the manifest collection of `dn`: `SetManifest(dn, m)` succeeds,
`GetManifest(dn, m.Name)` then returns `m`, the deployment map is unchanged, and
`GetLatestManifest(dn)` returns after the call what it returned before whenever
`m.Name` is not the stored `LatestManifest` name of `dn`; when `m.Name` is that
name, `GetLatestManifest(dn)` fails with not-found before the call and returns `m`
after it. -/
theorem C7_set_manifest_frame (r : mapBasedRepository) (dn : String) (m : Manifest)
    (d : Deployment) (hv : GetValidDeployment r dn = .ok d)
    (hfresh : ∀ l, r.manifests.lookup dn = some l → l.lookup m.Name = none) :
    (SetManifest r dn m).1 = .ok () ∧
    (GetManifest (SetManifest r dn m).2 dn m.Name).1 = .ok m ∧
    (SetManifest r dn m).2.deployments = r.deployments ∧
    (m.Name ≠ d.LatestManifest →
      (GetLatestManifest (SetManifest r dn m).2 dn).1 = (GetLatestManifest r dn).1) ∧
    (m.Name = d.LatestManifest →
      (GetLatestManifest r dn).1 = .error (.manifestNotFound m.Name dn) ∧
      (GetLatestManifest (SetManifest r dn m).2 dn).1 = .ok m) := by
  have hf := manifestsOf_lookup_none_of_fresh r dn m.Name hfresh
  rw [SetManifest_eq r dn m]
  generalize hr2 :
    ({ deployments := r.deployments
       manifests :=
        (listManifestsForDeployment r dn).2.manifests.insert dn
          ((manifestsOf r dn).insert m.Name m)
       instances := r.instances } : mapBasedRepository) = r2
  have hdep : r2.deployments = r.deployments := by
    rw [← hr2]
  have hman : r2.manifests.lookup dn = some ((manifestsOf r dn).insert m.Name m) := by
    rw [← hr2]
    exact AList.lookup_insert _
  have hv2 : GetValidDeployment r2 dn = .ok d :=
    (GetValidDeployment_congr r r2 dn hdep).trans hv
  have hof : manifestsOf r2 dn = (manifestsOf r dn).insert m.Name m :=
    manifestsOf_of_lookup r2 dn _ hman
  have hget : (manifestsOf r2 dn).lookup m.Name = some m := by
    rw [hof]
    exact AList.lookup_insert _
  refine ⟨rfl, ?_, hdep, ?_, ?_⟩
  · rw [GetManifest_fst_of_valid r2 dn m.Name d hv2, hget]
  · intro hne
    have hother : (manifestsOf r2 dn).lookup d.LatestManifest
        = (manifestsOf r dn).lookup d.LatestManifest := by
      rw [hof]
      exact AList.lookup_insert_ne (Ne.symm hne)
    rw [GetLatestManifest_fst_of_valid r2 dn d hv2, GetLatestManifest_fst_of_valid r dn d hv,
      hother]
  · intro heq
    rw [GetLatestManifest_fst_of_valid r2 dn d hv2, GetLatestManifest_fst_of_valid r dn d hv,
      ← heq, hget, hf]
    exact ⟨rfl, rfl⟩

/-- C7 amended, at a concrete input: `SetManifest("a", v2)` on the deployment
"a", whose collection holds "v1" and whose latest pointer is "v1". -/
theorem C7_set_manifest_frame_witness :
    (SetManifest storeWithAV1 "a" manifestV2).1 = .ok () ∧
    (GetManifest (SetManifest storeWithAV1 "a" manifestV2).2 "a" manifestV2.Name).1
      = .ok manifestV2 ∧
    (SetManifest storeWithAV1 "a" manifestV2).2.deployments = storeWithAV1.deployments ∧
    (manifestV2.Name ≠ deploymentAV1.LatestManifest →
      (GetLatestManifest (SetManifest storeWithAV1 "a" manifestV2).2 "a").1
        = (GetLatestManifest storeWithAV1 "a").1) ∧
    (manifestV2.Name = deploymentAV1.LatestManifest →
      (GetLatestManifest storeWithAV1 "a").1
        = .error (.manifestNotFound manifestV2.Name "a") ∧
      (GetLatestManifest (SetManifest storeWithAV1 "a" manifestV2).2 "a").1
        = .ok manifestV2) :=
  C7_set_manifest_frame storeWithAV1 "a" manifestV2 deploymentAV1 rfl
    (fun l hl => by
      have h0 : storeWithAV1.manifests.lookup "a"
          = some (AList.insert "v1" manifestV1 ∅) := rfl
      rw [h0] at hl
      cases hl
      rfl)

/-! ## C8: the manifest writers and the validity check -/

/-- C8, the code at three failing inputs.  In the empty store
`GetValidDeployment("d")` fails with not-found, yet `SetManifest("d", v1)` returns
no error and stores "v1" under "d".  In `storeWithTombstoneA` the deployment "a"
is tombstoned, yet `SetManifest("a", v1)` returns no error and stores "v1" under
"a".  In `storeWithTombstoneAV1` the deployment "a" is tombstoned and has the
manifest "v1": `AddManifest("a", v1)` fails with the manifest already-exists error,
not with the "is deleted" error of `GetValidDeployment`. -/
theorem C8_manifest_writers_ungated :
    GetValidDeployment NewMapBasedRepository "d" = .error (.deploymentNotFound "d") ∧
    (SetManifest NewMapBasedRepository "d" manifestV1).1 = .ok () ∧
    ((SetManifest NewMapBasedRepository "d" manifestV1).2.manifests.lookup "d").bind
      (fun l => l.lookup "v1") = some manifestV1 ∧
    GetValidDeployment storeWithTombstoneA "a" = .error (.deploymentDeleted "a") ∧
    (SetManifest storeWithTombstoneA "a" manifestV1).1 = .ok () ∧
    ((SetManifest storeWithTombstoneA "a" manifestV1).2.manifests.lookup "a").bind
      (fun l => l.lookup "v1") = some manifestV1 ∧
    GetValidDeployment storeWithTombstoneAV1 "a" = .error (.deploymentDeleted "a") ∧
    (AddManifest storeWithTombstoneAV1 "a" manifestV1).1
      = .error (.manifestExists "v1" "a") :=
  ⟨rfl, rfl, rfl, rfl, rfl, rfl, rfl, rfl⟩

/-! ## C9: the operations gated by the validity check -/

/-- C9. When `GetValidDeployment(dn)` fails with error `e` (not-found for a
missing name, "is deleted" for a tombstoned one), each of `SetDeploymentState`,
`DeleteDeployment` with either flag, `ListManifests`, `GetManifest` and
`GetLatestManifest` on `dn` fails with that same `e` and leaves the store, so the
deployment map, unchanged. -/
theorem C9_gated_operations (r : mapBasedRepository) (dn : String) (e : RepoError)
    (h : GetValidDeployment r dn = .error e) :
    ((e = .deploymentNotFound dn ∧ dn ∉ r.deployments) ∨
      (e = .deploymentDeleted dn ∧
        ∃ d, r.deployments.lookup dn = some d ∧ d.State.Status = DeletedStatus)) ∧
    (∀ st now, SetDeploymentState r dn st now = (.error e, r)) ∧
    (∀ forget now, DeleteDeployment r dn forget now = (.error e, r)) ∧
    ListManifests r dn = (.error e, r) ∧
    (∀ x, GetManifest r dn x = (.error e, r)) ∧
    GetLatestManifest r dn = (.error e, r) := by
  refine ⟨?_, fun st now => SetDeploymentState_of_error r dn e st now h,
    fun forget now => DeleteDeployment_of_error r dn e forget now h,
    ListManifests_of_error r dn e h, fun x => GetManifest_of_error r dn x e h,
    GetLatestManifest_of_error r dn e h⟩
  rcases GetValidDeployment_error_cases r dn e h with ⟨he, hl⟩ | hdel
  · exact Or.inl ⟨he, AList.lookup_eq_none.1 hl⟩
  · exact Or.inr hdel

/-- C9, at a concrete input: the tombstoned deployment "a". -/
theorem C9_gated_operations_witness :
    ((RepoError.deploymentDeleted "a" = .deploymentNotFound "a" ∧
        "a" ∉ storeWithTombstoneA.deployments) ∨
      (RepoError.deploymentDeleted "a" = .deploymentDeleted "a" ∧
        ∃ d, storeWithTombstoneA.deployments.lookup "a" = some d ∧
          d.State.Status = DeletedStatus)) ∧
    (∀ st now, SetDeploymentState storeWithTombstoneA "a" st now
      = (.error (.deploymentDeleted "a"), storeWithTombstoneA)) ∧
    (∀ forget now, DeleteDeployment storeWithTombstoneA "a" forget now
      = (.error (.deploymentDeleted "a"), storeWithTombstoneA)) ∧
    ListManifests storeWithTombstoneA "a"
      = (.error (.deploymentDeleted "a"), storeWithTombstoneA) ∧
    (∀ x, GetManifest storeWithTombstoneA "a" x
      = (.error (.deploymentDeleted "a"), storeWithTombstoneA)) ∧
    GetLatestManifest storeWithTombstoneA "a"
      = (.error (.deploymentDeleted "a"), storeWithTombstoneA) :=
  C9_gated_operations storeWithTombstoneA "a" (.deploymentDeleted "a") rfl

/-! ## C10: what a failing call leaves behind -/

/-- The listing helper of `AddManifest` runs before its validity check: in the
empty store `AddManifest("d", v1)` returns the deployment not-found error and
leaves an empty collection stored for "d". -/
theorem AddManifest_missing_deployment_leaves_collection :
    (AddManifest NewMapBasedRepository "d" manifestV1).1 = .error (.deploymentNotFound "d") ∧
    NewMapBasedRepository.manifests.lookup "d" = none ∧
    (AddManifest NewMapBasedRepository "d" manifestV1).2.manifests.lookup "d" = some ∅ :=
  ⟨rfl, rfl, rfl⟩

/-- C11. For a valid deployment `n` with stored record `d`,
`DeleteDeployment(n, forget=true)` returns `d` with only `LatestManifest` replaced
by the empty string, removes the key `n` and nothing else from the deployment map
and from the manifest map, and leaves the type-instance map unchanged.  With
`forget=false` the type-instance map and the manifest collection of `n` are
unchanged as well. -/
theorem C11_delete_frame (r : mapBasedRepository) (n : String) (d : Deployment)
    (now : Time) (h : GetValidDeployment r n = .ok d) :
    r.deployments.lookup n = some d ∧
    (DeleteDeployment r n true now).1 = .ok { d with LatestManifest := "" } ∧
    (DeleteDeployment r n true now).2.deployments = r.deployments.erase n ∧
    (DeleteDeployment r n true now).2.manifests = r.manifests.erase n ∧
    (DeleteDeployment r n true now).2.deployments.lookup n = none ∧
    (DeleteDeployment r n true now).2.manifests.lookup n = none ∧
    (∀ k, k ≠ n →
      (DeleteDeployment r n true now).2.deployments.lookup k = r.deployments.lookup k) ∧
    (∀ k, k ≠ n →
      (DeleteDeployment r n true now).2.manifests.lookup k = r.manifests.lookup k) ∧
    (DeleteDeployment r n true now).2.instances = r.instances ∧
    (DeleteDeployment r n false now).2.instances = r.instances ∧
    (DeleteDeployment r n false now).2.manifests.lookup n = r.manifests.lookup n := by
  rw [DeleteDeployment_of_ok r n d true now h, DeleteDeployment_of_ok r n d false now h]
  refine ⟨((GetValidDeployment_ok_iff r n d).1 h).1, rfl, rfl, rfl, AList.lookup_erase n _,
    AList.lookup_erase n _, ?_, ?_, rfl, rfl, rfl⟩
  · intro k hk
    exact AList.lookup_erase_ne hk
  · intro k hk
    exact AList.lookup_erase_ne hk

/-- C11, at a concrete input: deleting the deployment "a" of `storeWithAV1`,
which has the manifest "v1". -/
theorem C11_delete_frame_witness :
    storeWithAV1.deployments.lookup "a" = some deploymentAV1 ∧
    (DeleteDeployment storeWithAV1 "a" true 2).1
      = .ok { deploymentAV1 with LatestManifest := "" } ∧
    (DeleteDeployment storeWithAV1 "a" true 2).2.deployments
      = storeWithAV1.deployments.erase "a" ∧
    (DeleteDeployment storeWithAV1 "a" true 2).2.manifests
      = storeWithAV1.manifests.erase "a" ∧
    (DeleteDeployment storeWithAV1 "a" true 2).2.deployments.lookup "a" = none ∧
    (DeleteDeployment storeWithAV1 "a" true 2).2.manifests.lookup "a" = none ∧
    (∀ k, k ≠ "a" →
      (DeleteDeployment storeWithAV1 "a" true 2).2.deployments.lookup k
        = storeWithAV1.deployments.lookup k) ∧
    (∀ k, k ≠ "a" →
      (DeleteDeployment storeWithAV1 "a" true 2).2.manifests.lookup k
        = storeWithAV1.manifests.lookup k) ∧
    (DeleteDeployment storeWithAV1 "a" true 2).2.instances = storeWithAV1.instances ∧
    (DeleteDeployment storeWithAV1 "a" false 2).2.instances = storeWithAV1.instances ∧
    (DeleteDeployment storeWithAV1 "a" false 2).2.manifests.lookup "a"
      = storeWithAV1.manifests.lookup "a" :=
  C11_delete_frame storeWithAV1 "a" deploymentAV1 2 rfl

/-! ## C12 and C13: reading the type instances -/

/-- Ranging over a map with unique keys and keeping the entry of one key is
looking that key up. -/
theorem flatMap_key_eq_lookup {β γ : Type} (g : β → List γ) (t : String) :
    ∀ l : List (Sigma (fun _ : String => β)), l.NodupKeys →
      l.flatMap (fun e => if e.1 = t then g e.2 else []) =
        ((l.dlookup t).map g).getD [] := by
  intro l
  induction l with
  | nil =>
    intro _
    rfl
  | cons e rest ih =>
    intro hnd
    obtain ⟨hnot, hrest⟩ := List.nodupKeys_cons.1 hnd
    rw [List.flatMap_cons, ih hrest]
    by_cases hk : e.1 = t
    · have hnone : rest.dlookup t = none := by
        rw [List.dlookup_eq_none, ← hk]
        exact hnot
      obtain ⟨k, v⟩ := e
      simp only at hk
      subst hk
      rw [hnone, List.dlookup_cons_eq]
      simp
    · rw [List.dlookup_cons_ne rest e (Ne.symm hk)]
      simp [hk]

/-- C12. For a type name `t` other than "all", `GetTypeInstances(t)` is the
concatenation of the instance lists of the deployment buckets stored under `t`,
and is empty when nothing is stored under `t`; `GetTypeInstances("all")` is the
concatenation of the instance lists of every deployment bucket under every type.
Both hold in the iteration order of the maps, hence up to order. -/
theorem C12_get_type_instances (r : mapBasedRepository) :
    (∀ t, t ≠ "all" →
      GetTypeInstances r t =
        match r.instances.lookup t with
        | none => []
        | some dMap => dMap.entries.flatMap (fun b => b.2)) ∧
    GetTypeInstances r "all" =
      r.instances.entries.flatMap (fun e => e.2.entries.flatMap (fun b => b.2)) := by
  constructor
  · intro t ht
    unfold GetTypeInstances
    simp only [ht, or_false]
    rw [flatMap_key_eq_lookup (fun dMap : deploymentTypeInstanceMap =>
      dMap.entries.flatMap (fun b => b.2)) t r.instances.entries r.instances.nodupKeys]
    show ((r.instances.lookup t).map _).getD [] = _
    cases r.instances.lookup t <;> rfl
  · unfold GetTypeInstances
    simp

/-- C12, at a concrete input: the instances of type "T" and of all types in
`storeWithTypeT`, and of a type that is not stored. -/
theorem C12_get_type_instances_witness :
    GetTypeInstances storeWithTypeT "T" = [instanceOne, instanceTwo] ∧
    GetTypeInstances storeWithTypeT "U" = [] ∧
    GetTypeInstances storeWithTypeT "all" = [instanceOne, instanceTwo] :=
  ⟨((C12_get_type_instances storeWithTypeT).1 "T" (by decide)).trans rfl,
    ((C12_get_type_instances storeWithTypeT).1 "U" (by decide)).trans rfl,
    ((C12_get_type_instances storeWithTypeT).2).trans rfl⟩

/-- C13, the code at a failing input: in the store that holds the instances
`i1`, `i2` of type "T", `GetTypeInstances("")` returns nothing, while the instances
of all types are `i1`, `i2`. -/
theorem C13_empty_type_name_returns_nothing :
    GetTypeInstances storeWithTypeT "" = [] ∧
    GetTypeInstances storeWithTypeT "all" = [instanceOne, instanceTwo] ∧
    storeWithTypeT.instances.entries.flatMap (fun e => e.2.entries.flatMap (fun b => b.2))
      = [instanceOne, instanceTwo] :=
  ⟨rfl, rfl, rfl⟩

/-! ## The loops of `SetTypeInstances` and `ClearTypeInstances` -/

theorem lookup_setTypeInstancesBody (d : String) (acc : typeInstanceMap)
    (e : Sigma (fun _ : String => List TypeInstance)) (t : String) :
    (setTypeInstancesBody d acc e).lookup t =
      if t = e.1 then
        some (((acc.lookup e.1).getD ∅).insert d e.2)
      else acc.lookup t := by
  unfold setTypeInstancesBody
  by_cases ht : t = e.1
  · subst ht
    rw [if_pos rfl, AList.lookup_insert]
    cases acc.lookup e.1 <;> rfl
  · rw [if_neg ht, AList.lookup_insert_ne ht]

theorem bucketIn_setTypeInstancesBody (d : String) (acc : typeInstanceMap)
    (e : Sigma (fun _ : String => List TypeInstance)) (t d2 : String) :
    bucketIn (setTypeInstancesBody d acc e) t d2 =
      if t = e.1 ∧ d2 = d then some e.2 else bucketIn acc t d2 := by
  unfold bucketIn
  rw [lookup_setTypeInstancesBody]
  by_cases ht : t = e.1
  · subst ht
    by_cases hd : d2 = d
    · subst hd
      simp [AList.lookup_insert]
    · simp only [if_true, hd, and_false, if_false, Option.some_bind]
      rw [AList.lookup_insert_ne hd]
      cases acc.lookup e.1 with
      | none => rfl
      | some dMap => rfl
  · simp [ht]

/-- The loop of `SetTypeInstances` leaves every bucket alone whose type is not in
the argument map or whose deployment is another one. -/
theorem bucketIn_foldl_setTypeInstancesBody_other (d t d2 : String) :
    ∀ (l : List (Sigma (fun _ : String => List TypeInstance))) (acc : typeInstanceMap),
      (t ∉ l.keys ∨ d2 ≠ d) →
      bucketIn (l.foldl (setTypeInstancesBody d) acc) t d2 = bucketIn acc t d2 := by
  intro l
  induction l with
  | nil =>
    intro acc _
    rfl
  | cons e rest ih =>
    intro acc h
    rw [List.foldl_cons]
    have hrest : t ∉ rest.keys ∨ d2 ≠ d := by
      rcases h with h | h
      · left
        intro hmem
        exact h (by rw [List.keys_cons]; exact List.mem_cons_of_mem _ hmem)
      · exact Or.inr h
    rw [ih _ hrest, bucketIn_setTypeInstancesBody]
    have hnot : ¬ (t = e.1 ∧ d2 = d) := by
      rintro ⟨h1, h2⟩
      rcases h with h | h
      · apply h
        rw [List.keys_cons, h1]
        exact List.mem_cons_self _ _
      · exact h h2
    rw [if_neg hnot]

/-- The loop of `SetTypeInstances` stores, for each type of the argument map, the
given list as the bucket of the deployment. -/
theorem bucketIn_foldl_setTypeInstancesBody_same (d t : String) (is : List TypeInstance) :
    ∀ (l : List (Sigma (fun _ : String => List TypeInstance))) (acc : typeInstanceMap),
      l.NodupKeys → l.dlookup t = some is →
      bucketIn (l.foldl (setTypeInstancesBody d) acc) t d = some is := by
  intro l
  induction l with
  | nil =>
    intro acc _ h
    cases h
  | cons e rest ih =>
    intro acc hnd h
    obtain ⟨hnot, hrest⟩ := List.nodupKeys_cons.1 hnd
    rw [List.foldl_cons]
    by_cases ht : t = e.1
    · obtain ⟨k, v⟩ := e
      simp only at ht hnot
      subst ht
      rw [List.dlookup_cons_eq] at h
      rw [bucketIn_foldl_setTypeInstancesBody_other d t d rest _ (Or.inl hnot),
        bucketIn_setTypeInstancesBody]
      simpa using h
    · rw [List.dlookup_cons_ne rest e ht] at h
      exact ih _ hrest h

theorem lookup_clearTypeInstancesBody (d : String) (acc : typeInstanceMap)
    (e : Sigma (fun _ : String => deploymentTypeInstanceMap)) (t : String) :
    (clearTypeInstancesBody d acc e).lookup t =
      if t = e.1 then
        (if (e.2.erase d).entries.length = 0 then none else some (e.2.erase d))
      else acc.lookup t := by
  unfold clearTypeInstancesBody
  by_cases ht : t = e.1
  · subst ht
    by_cases hlen : (e.2.erase d).entries.length = 0
    · simp only [hlen, if_true]
      exact AList.lookup_erase e.1 acc
    · simp only [hlen, if_true, if_false]
      exact AList.lookup_insert acc
  · by_cases hlen : (e.2.erase d).entries.length = 0
    · simp only [hlen, if_true, ht, if_false]
      exact AList.lookup_erase_ne ht
    · simp only [hlen, ht, if_false]
      exact AList.lookup_insert_ne ht

theorem lookup_foldl_clearTypeInstancesBody_other (d t : String) :
    ∀ (l : List (Sigma (fun _ : String => deploymentTypeInstanceMap)))
      (acc : typeInstanceMap),
      t ∉ l.keys → (l.foldl (clearTypeInstancesBody d) acc).lookup t = acc.lookup t := by
  intro l
  induction l with
  | nil =>
    intro acc _
    rfl
  | cons e rest ih =>
    intro acc h
    rw [List.keys_cons, List.mem_cons, not_or] at h
    rw [List.foldl_cons, ih _ h.2, lookup_clearTypeInstancesBody, if_neg h.1]

theorem lookup_foldl_clearTypeInstancesBody_same (d t : String)
    (dMap : deploymentTypeInstanceMap) :
    ∀ (l : List (Sigma (fun _ : String => deploymentTypeInstanceMap)))
      (acc : typeInstanceMap),
      l.NodupKeys → l.dlookup t = some dMap →
      (l.foldl (clearTypeInstancesBody d) acc).lookup t =
        if (dMap.erase d).entries.length = 0 then none else some (dMap.erase d) := by
  intro l
  induction l with
  | nil =>
    intro acc _ h
    cases h
  | cons e rest ih =>
    intro acc hnd h
    obtain ⟨hnot, hrest⟩ := List.nodupKeys_cons.1 hnd
    rw [List.foldl_cons]
    by_cases ht : t = e.1
    · obtain ⟨k, v⟩ := e
      simp only at ht hnot
      subst ht
      rw [List.dlookup_cons_eq] at h
      simp only [Option.some.injEq] at h
      subst h
      rw [lookup_foldl_clearTypeInstancesBody_other d t rest _ hnot,
        lookup_clearTypeInstancesBody, if_pos rfl]
    · rw [List.dlookup_cons_ne rest e ht] at h
      exact ih _ hrest h

/-- The type-instance map after `ClearTypeInstances`: each inner map loses the
bucket of the deployment, and a type whose inner map is then empty is gone. -/
theorem lookup_ClearTypeInstances (r : mapBasedRepository) (d t : String) :
    (ClearTypeInstances r d).instances.lookup t =
      (r.instances.lookup t).bind (fun dMap =>
        if (dMap.erase d).entries.length = 0 then none else some (dMap.erase d)) := by
  unfold ClearTypeInstances
  simp only
  cases hl : r.instances.lookup t with
  | none =>
    rw [lookup_foldl_clearTypeInstancesBody_other d t _ _ (AList.lookup_eq_none.1 hl), hl]
    rfl
  | some dMap =>
    rw [lookup_foldl_clearTypeInstancesBody_same d t dMap _ _ r.instances.nodupKeys hl]
    rfl

/-- An instance of a stored bucket is returned by `GetTypeInstances` for the type
of the bucket and for "all". -/
theorem mem_GetTypeInstances_of_bucketOf (r : mapBasedRepository) (t d : String)
    (is : List TypeInstance) (i : TypeInstance) (hb : bucketOf r t d = some is)
    (hi : i ∈ is) :
    i ∈ GetTypeInstances r t ∧ i ∈ GetTypeInstances r "all" := by
  unfold bucketOf bucketIn at hb
  cases hl : r.instances.lookup t with
  | none =>
    rw [hl] at hb
    cases hb
  | some dMap =>
    rw [hl] at hb
    have hb2 : dMap.lookup d = some is := hb
    have hmem : (⟨t, dMap⟩ : Sigma (fun _ : String => deploymentTypeInstanceMap))
        ∈ r.instances.entries := AList.mem_lookup_iff.1 hl
    have hmem2 : (⟨d, is⟩ : Sigma (fun _ : String => List TypeInstance)) ∈ dMap.entries :=
      AList.mem_lookup_iff.1 hb2
    have hin : i ∈ dMap.entries.flatMap (fun b => b.2) :=
      List.mem_flatMap.2 ⟨⟨d, is⟩, hmem2, hi⟩
    unfold GetTypeInstances
    constructor
    · refine List.mem_flatMap.2 ⟨⟨t, dMap⟩, hmem, ?_⟩
      simpa using hin
    · refine List.mem_flatMap.2 ⟨⟨t, dMap⟩, hmem, ?_⟩
      simpa using hin

/-! ## C14: setting the type instances of a deployment -/

/-- C14. After `SetTypeInstances(d, M)`: for every type `t` that is a key of `M`
the bucket stored for `t` and `d` is `M[t]`, so every instance of `M[t]` occurs in
`GetTypeInstances(t)` and in `GetTypeInstances("all")`; and the bucket of every
pair of a type and a deployment with the type not a key of `M` or the deployment
other than `d` is what it was before the call. -/
theorem C14_set_type_instances (r : mapBasedRepository) (d : String)
    (M : GoMap (List TypeInstance)) :
    (∀ t is, M.lookup t = some is →
      bucketOf (SetTypeInstances r d M) t d = some is ∧
      (∀ i, i ∈ is →
        i ∈ GetTypeInstances (SetTypeInstances r d M) t ∧
        i ∈ GetTypeInstances (SetTypeInstances r d M) "all")) ∧
    (∀ t2 d2, (t2 ∉ M ∨ d2 ≠ d) →
      bucketOf (SetTypeInstances r d M) t2 d2 = bucketOf r t2 d2) := by
  constructor
  · intro t is hl
    have hb : bucketOf (SetTypeInstances r d M) t d = some is :=
      bucketIn_foldl_setTypeInstancesBody_same d t is M.entries r.instances M.nodupKeys hl
    exact ⟨hb, fun i hi => mem_GetTypeInstances_of_bucketOf _ t d is i hb hi⟩
  · intro t2 d2 h
    exact bucketIn_foldl_setTypeInstancesBody_other d t2 d2 M.entries r.instances h

/-- C14, at a concrete input: in `storeWithTypeT`, which holds `i1`, `i2` under
type "T" for deployment "d", the instance lists of "U" and "T" are set for another
deployment "e"; the bucket of "d" under "T" stays. -/
theorem C14_set_type_instances_witness :
    bucketOf (SetTypeInstances storeWithTypeT "e" instancesForTU) "T" "e"
      = some [instanceTwo] ∧
    bucketOf (SetTypeInstances storeWithTypeT "e" instancesForTU) "U" "e"
      = some [instanceOne] ∧
    bucketOf (SetTypeInstances storeWithTypeT "e" instancesForTU) "T" "d"
      = some [instanceOne, instanceTwo] ∧
    instanceTwo ∈ GetTypeInstances (SetTypeInstances storeWithTypeT "e" instancesForTU) "all" :=
  ⟨((C14_set_type_instances storeWithTypeT "e" instancesForTU).1 "T" [instanceTwo] rfl).1,
    ((C14_set_type_instances storeWithTypeT "e" instancesForTU).1 "U" [instanceOne] rfl).1,
    ((C14_set_type_instances storeWithTypeT "e" instancesForTU).2 "T" "d"
      (Or.inr (by decide))).trans rfl,
    (((C14_set_type_instances storeWithTypeT "e" instancesForTU).1 "T" [instanceTwo] rfl).2
      instanceTwo (List.mem_singleton.2 rfl)).2⟩

/-! ## C15: clearing the type instances of a deployment -/

theorem lookup_eq_none_of_length_zero {β : Type} (m : GoMap β) (k : String)
    (h : m.entries.length = 0) : m.lookup k = none := by
  have hnil : m.entries = [] := List.length_eq_zero.1 h
  show m.entries.dlookup k = none
  rw [hnil]
  rfl

/-- C15. After `ClearTypeInstances(d)`: no type has a bucket for `d`; a type name
is returned by `ListTypes` exactly when, before the call, some deployment other
than `d` had a bucket under it; and the bucket of every other deployment under
every type is unchanged. -/
theorem C15_clear_type_instances (r : mapBasedRepository) (d : String) :
    (∀ t, bucketOf (ClearTypeInstances r d) t d = none) ∧
    (∀ t, t ∈ ListTypes (ClearTypeInstances r d) ↔
      ∃ d2 is, d2 ≠ d ∧ bucketOf r t d2 = some is) ∧
    (∀ t d2, d2 ≠ d → bucketOf (ClearTypeInstances r d) t d2 = bucketOf r t d2) := by
  refine ⟨?_, ?_, ?_⟩
  · intro t
    unfold bucketOf bucketIn
    rw [lookup_ClearTypeInstances]
    cases r.instances.lookup t with
    | none => rfl
    | some dMap =>
      by_cases hlen : (dMap.erase d).entries.length = 0
      · simp [hlen]
      · simp only [Option.some_bind, hlen, if_false]
        exact AList.lookup_erase d dMap
  · intro t
    unfold ListTypes bucketOf bucketIn
    rw [← AList.mem_keys, ← AList.lookup_isSome, lookup_ClearTypeInstances]
    cases r.instances.lookup t with
    | none => simp
    | some dMap =>
      by_cases hlen : (dMap.erase d).entries.length = 0
      · simp only [Option.some_bind, hlen, if_true, Option.isSome_none, Bool.false_eq_true,
          false_iff, not_exists, not_and]
        intro d2 is hne hl
        have h1 : (dMap.erase d).lookup d2 = some is := by
          rw [AList.lookup_erase_ne hne]
          exact hl
        rw [lookup_eq_none_of_length_zero _ d2 hlen] at h1
        cases h1
      · simp only [Option.some_bind, hlen, if_false, Option.isSome_some, true_iff]
        cases hent : (dMap.erase d).entries with
        | nil =>
          rw [hent] at hlen
          exact absurd rfl hlen
        | cons b rest =>
          obtain ⟨d2, is⟩ := b
          have hmem : (⟨d2, is⟩ : Sigma (fun _ : String => List TypeInstance))
              ∈ (dMap.erase d).entries := by
            rw [hent]
            exact List.mem_cons_self _ _
          have hl : (dMap.erase d).lookup d2 = some is := AList.mem_lookup_iff.2 hmem
          have hne : d2 ≠ d := by
            intro heq
            rw [heq, AList.lookup_erase] at hl
            cases hl
          rw [AList.lookup_erase_ne hne] at hl
          exact ⟨d2, is, hne, hl⟩
  · intro t d2 hne
    unfold bucketOf bucketIn
    rw [lookup_ClearTypeInstances]
    cases r.instances.lookup t with
    | none => rfl
    | some dMap =>
      by_cases hlen : (dMap.erase d).entries.length = 0
      · simp only [Option.some_bind, hlen, if_true, Option.none_bind]
        have h1 := lookup_eq_none_of_length_zero _ d2 hlen
        rw [AList.lookup_erase_ne hne] at h1
        exact h1.symm
      · simp only [Option.some_bind, hlen, if_false]
        exact AList.lookup_erase_ne hne

/-- C15, at a concrete input: clearing "d" in `storeWithTypeT`, where "T" has no
other deployment, leaves no type listed. -/
theorem C15_clear_type_instances_witness :
    bucketOf storeWithTypeT "T" "d" = some [instanceOne, instanceTwo] ∧
    ListTypes storeWithTypeT = ["T"] ∧
    ListTypes (ClearTypeInstances storeWithTypeT "d") = [] ∧
    bucketOf (ClearTypeInstances storeWithTypeT "d") "T" "d" = none :=
  ⟨rfl, rfl, rfl, (C15_clear_type_instances storeWithTypeT "d").1 "T"⟩

/-! ## The store a call leaves behind -/

/-- The store after `GetManifest` is the store after the listing helper, or the
store before when the deployment is not valid. -/
theorem GetManifest_snd (r : mapBasedRepository) (n x : String) :
    (GetManifest r n x).2 = r ∨ (GetManifest r n x).2 = (listManifestsForDeployment r n).2 := by
  cases hv : GetValidDeployment r n with
  | error e =>
    rw [GetManifest_of_error r n x e hv]
    exact Or.inl rfl
  | ok d =>
    right
    unfold GetManifest
    rw [hv]
    exact getManifestForDeployment_snd r n x

theorem GetLatestManifest_snd (r : mapBasedRepository) (n : String) :
    (GetLatestManifest r n).2 = r ∨
      (GetLatestManifest r n).2 = (listManifestsForDeployment r n).2 := by
  cases hv : GetValidDeployment r n with
  | error e =>
    rw [GetLatestManifest_of_error r n e hv]
    exact Or.inl rfl
  | ok d =>
    right
    unfold GetLatestManifest
    rw [hv]
    exact getManifestForDeployment_snd r n d.LatestManifest

theorem ListManifests_snd (r : mapBasedRepository) (n : String) :
    (ListManifests r n).2 = r ∨ (ListManifests r n).2 = (listManifestsForDeployment r n).2 := by
  cases hv : GetValidDeployment r n with
  | error e =>
    rw [ListManifests_of_error r n e hv]
    exact Or.inl rfl
  | ok d =>
    right
    unfold ListManifests
    rw [hv]

/-- The store after `AddManifest` when the call fails is the store after the
listing helper. -/
theorem AddManifest_cases (r : mapBasedRepository) (n : String) (m : Manifest) :
    (AddManifest r n m).2 = (listManifestsForDeployment r n).2 ∨
    ∃ d, GetValidDeployment r n = .ok d ∧ (manifestsOf r n).lookup m.Name = none ∧
      (AddManifest r n m).2 =
        { deployments := r.deployments.insert n { d with LatestManifest := m.Name }
          manifests :=
            (listManifestsForDeployment r n).2.manifests.insert n
              ((manifestsOf r n).insert m.Name m)
          instances := r.instances } := by
  cases hex : (manifestsOf r n).lookup m.Name with
  | some m0 =>
    have hsome : ((manifestsOf r n).lookup m.Name).isSome = true := by
      rw [hex]
      rfl
    rw [AddManifest_of_exists r n m hsome]
    exact Or.inl rfl
  | none =>
    cases hv : GetValidDeployment r n with
    | error e =>
      rw [AddManifest_of_error r n m e hex hv]
      exact Or.inl rfl
    | ok d =>
      rw [AddManifest_of_ok r n m d hex hv]
      exact Or.inr ⟨d, rfl, rfl, rfl⟩

/-- None of the eight fallible methods writes to the type-instance map. -/
theorem FallibleCall_run_instances (c : FallibleCall) (r : mapBasedRepository) :
    (c.run r).2.instances = r.instances := by
  cases c with
  | createDeployment n now =>
    simp only [FallibleCall.run]
    cases hv : GetValidDeployment r n with
    | ok d => rw [CreateDeployment_of_ok r n d now hv]
    | error e => rw [CreateDeployment_of_error r n e now hv]
  | setDeploymentState n st now =>
    simp only [FallibleCall.run]
    unfold SetDeploymentState
    cases GetValidDeployment r n <;> rfl
  | deleteDeployment n forget now =>
    simp only [FallibleCall.run]
    unfold DeleteDeployment
    cases GetValidDeployment r n with
    | error e => rfl
    | ok d => cases forget <;> rfl
  | addManifest n m =>
    simp only [FallibleCall.run]
    rcases AddManifest_cases r n m with h | ⟨d, _, _, h⟩
    · rw [h, listManifestsForDeployment_instances]
    · rw [h]
  | setManifest n m =>
    simp only [FallibleCall.run]
    rw [SetManifest_eq]
  | listManifests n =>
    simp only [FallibleCall.run]
    rcases ListManifests_snd r n with h | h
    · rw [h]
    · rw [h, listManifestsForDeployment_instances]
  | getManifest n x =>
    simp only [FallibleCall.run]
    rcases GetManifest_snd r n x with h | h
    · rw [h]
    · rw [h, listManifestsForDeployment_instances]
  | getLatestManifest n =>
    simp only [FallibleCall.run]
    rcases GetLatestManifest_snd r n with h | h
    · rw [h]
    · rw [h, listManifestsForDeployment_instances]

/-! ## C16: the types that are listed -/

/-- The loop of `SetTypeInstances` keeps every inner map non-empty. -/
theorem foldl_setTypeInstancesBody_nonempty (d : String) :
    ∀ (l : List (Sigma (fun _ : String => List TypeInstance))) (acc : typeInstanceMap),
      (∀ t dMap, acc.lookup t = some dMap → dMap.entries ≠ []) →
      ∀ t dMap, (l.foldl (setTypeInstancesBody d) acc).lookup t = some dMap →
        dMap.entries ≠ [] := by
  intro l
  induction l with
  | nil =>
    intro acc h
    exact h
  | cons e rest ih =>
    intro acc h
    rw [List.foldl_cons]
    apply ih
    intro t dMap hl
    rw [lookup_setTypeInstancesBody] at hl
    by_cases ht : t = e.1
    · rw [if_pos ht] at hl
      simp only [Option.some.injEq] at hl
      rw [← hl, AList.insert_entries]
      exact List.cons_ne_nil _ _
    · rw [if_neg ht] at hl
      exact h t dMap hl

/-- In a reachable store every inner map of the type-instance map has at least
one deployment bucket. -/
theorem Reachable_inner_nonempty (r : mapBasedRepository) (hr : Reachable r) :
    ∀ t dMap, r.instances.lookup t = some dMap → dMap.entries ≠ [] := by
  induction hr with
  | empty =>
    intro t dMap h
    cases h
  | call r c _ ih =>
    rw [FallibleCall_run_instances]
    exact ih
  | clearTypeInstances r d _ ih =>
    intro t dMap h
    rw [lookup_ClearTypeInstances] at h
    cases hl : r.instances.lookup t with
    | none =>
      rw [hl] at h
      cases h
    | some dMap0 =>
      rw [hl] at h
      simp only [Option.some_bind] at h
      by_cases hlen : (dMap0.erase d).entries.length = 0
      · rw [if_pos hlen] at h
        cases h
      · rw [if_neg hlen] at h
        injection h with h
        rw [← h]
        intro hnil
        exact hlen (by rw [hnil]; rfl)
  | setTypeInstances r d M _ ih =>
    exact foldl_setTypeInstancesBody_nonempty d M.entries r.instances ih

/-- In a reachable store every listed type has at least one deployment bucket,
and `GetTypeInstances` of a listed type is non-empty as soon as one of its buckets
holds an instance, in particular when none of its buckets is the empty list. -/
theorem Reachable_listed_type_instances (r : mapBasedRepository) (t : String)
    (hr : Reachable r) (ht : t ∈ ListTypes r) :
    (∃ d is, bucketOf r t d = some is) ∧
    ((∃ d is, bucketOf r t d = some is ∧ is ≠ []) → GetTypeInstances r t ≠ []) ∧
    ((∀ d, bucketOf r t d ≠ some []) → GetTypeInstances r t ≠ []) := by
  have hbucket : ∃ d is, bucketOf r t d = some is := by
    unfold ListTypes at ht
    rw [← AList.mem_keys, ← AList.lookup_isSome, Option.isSome_iff_exists] at ht
    obtain ⟨dMap, hl⟩ := ht
    have hne := Reachable_inner_nonempty r hr t dMap hl
    cases hent : dMap.entries with
    | nil => exact absurd hent hne
    | cons b rest =>
      obtain ⟨d, is⟩ := b
      have hmem : (⟨d, is⟩ : Sigma (fun _ : String => List TypeInstance)) ∈ dMap.entries := by
        rw [hent]
        exact List.mem_cons_self _ _
      refine ⟨d, is, ?_⟩
      unfold bucketOf bucketIn
      rw [hl]
      exact AList.mem_lookup_iff.2 hmem
  have hsome : (∃ d is, bucketOf r t d = some is ∧ is ≠ []) → GetTypeInstances r t ≠ [] := by
    rintro ⟨d, is, hb, hne⟩
    cases is with
    | nil => exact absurd rfl hne
    | cons i rest =>
      have hin := (mem_GetTypeInstances_of_bucketOf r t d (i :: rest) i hb
        (List.mem_cons_self _ _)).1
      exact List.ne_nil_of_mem hin
  refine ⟨hbucket, hsome, ?_⟩
  intro hall
  obtain ⟨d, is, hb⟩ := hbucket
  refine hsome ⟨d, is, hb, ?_⟩
  intro hnil
  rw [hnil] at hb
  exact hall d hb

/-- C16, the code at a failing input: the store after
`SetTypeInstances("d", map["T"] = [])` on the empty store is reachable, `ListTypes`
returns the type "T" there, the only bucket under "T" is the empty list, and
`GetTypeInstances("T")` is empty: a listed type without any instance. -/
theorem C16_listed_type_without_instances :
    Reachable storeWithEmptyTypeT ∧
    ListTypes storeWithEmptyTypeT = ["T"] ∧
    bucketOf storeWithEmptyTypeT "T" "d" = some [] ∧
    GetTypeInstances storeWithEmptyTypeT "T" = [] :=
  ⟨Reachable.setTypeInstances _ "d" (AList.singleton "T" []) Reachable.empty, rfl, rfl, rfl⟩

/-! ## C17: the latest manifest of a deployment -/

/-- C17, refuted at a concrete input: after `CreateDeployment("a")` and
`AddManifest("a", m)` for the manifest `m` whose name is the empty string, "a" is
valid and its stored `LatestManifest` is the empty string, yet
`GetLatestManifest("a")` returns `m`.  The same holds when `m` is stored with
`SetManifest` instead. -/
theorem C17_empty_latest_name_counterexample :
    GetValidDeployment (AddManifest storeWithA "a" manifestUnnamed).2 "a"
      = .ok { NewDeployment "a" 1 with DeployedAt := 1, LatestManifest := "" } ∧
    (GetLatestManifest (AddManifest storeWithA "a" manifestUnnamed).2 "a").1
      = .ok manifestUnnamed ∧
    GetValidDeployment (SetManifest storeWithA "a" manifestUnnamed).2 "a"
      = .ok { NewDeployment "a" 1 with DeployedAt := 1, LatestManifest := "" } ∧
    (GetLatestManifest (SetManifest storeWithA "a" manifestUnnamed).2 "a").1
      = .ok manifestUnnamed :=
  ⟨rfl, rfl, rfl, rfl⟩

/-- C17, amended. For a valid deployment `dn` whose stored `LatestManifest` name
names no manifest in the collection of `dn`, `GetLatestManifest(dn)` fails with the
manifest not-found error. -/
theorem C17_latest_not_found (r : mapBasedRepository) (dn : String) (d : Deployment)
    (hv : GetValidDeployment r dn = .ok d)
    (hno : ∀ l, r.manifests.lookup dn = some l → l.lookup d.LatestManifest = none) :
    (GetLatestManifest r dn).1 = .error (.manifestNotFound d.LatestManifest dn) := by
  rw [GetLatestManifest_fst_of_valid r dn d hv,
    manifestsOf_lookup_none_of_fresh r dn d.LatestManifest hno]

/-- C17 amended, at a concrete input: the deployment "a" after
`SetManifest("a", v1)` on `storeWithA`; its collection holds "v1" and its latest
pointer is the empty string, which names no manifest. -/
theorem C17_latest_not_found_witness :
    (GetLatestManifest (SetManifest storeWithA "a" manifestV1).2 "a").1
      = .error (.manifestNotFound
          ({ NewDeployment "a" 1 with DeployedAt := 1 } : Deployment).LatestManifest "a") :=
  C17_latest_not_found (SetManifest storeWithA "a" manifestV1).2 "a"
    { NewDeployment "a" 1 with DeployedAt := 1 } rfl
    (fun l hl => by
      have h0 : (SetManifest storeWithA "a" manifestV1).2.manifests.lookup "a"
          = some (AList.insert "v1" manifestV1 ∅) := rfl
      rw [h0] at hl
      cases hl
      rfl)

/-! ## C19: the latest pointer in reachable stores -/

theorem latestPointerInvariant_listManifestsForDeployment (r : mapBasedRepository)
    (n0 : String) (h : latestPointerInvariant r) :
    latestPointerInvariant (listManifestsForDeployment r n0).2 := by
  cases hl : r.manifests.lookup n0 with
  | some l0 =>
    rw [listManifestsForDeployment_of_lookup r n0 l0 hl]
    exact h
  | none =>
    rw [listManifestsForDeployment_of_none r n0 hl]
    intro n d hd hne
    obtain ⟨l, m, h1, h2⟩ := h n d hd hne
    have hn : n ≠ n0 := by
      intro heq
      rw [heq, hl] at h1
      cases h1
    exact ⟨l, m, (AList.lookup_insert_ne hn).trans h1, h2⟩

/-- Writing a record for `n0` that keeps the latest pointer of the record stored
before keeps the invariant. -/
theorem latestPointerInvariant_insert_same_latest (r : mapBasedRepository) (n0 : String)
    (d0 d1 : Deployment) (h : latestPointerInvariant r)
    (hd0 : r.deployments.lookup n0 = some d0) (hlatest : d1.LatestManifest = d0.LatestManifest) :
    latestPointerInvariant { r with deployments := r.deployments.insert n0 d1 } := by
  intro n d hd hne
  by_cases hn : n = n0
  · subst hn
    have hd1 : d = d1 := by
      have h1 : (r.deployments.insert n d1).lookup n = some d := hd
      rw [AList.lookup_insert] at h1
      exact (Option.some.inj h1).symm
    rw [hd1, hlatest] at hne ⊢
    exact h n d0 hd0 hne
  · have h1 : (r.deployments.insert n0 d1).lookup n = some d := hd
    rw [AList.lookup_insert_ne hn] at h1
    exact h n d h1 hne

theorem latestPointerInvariant_CreateDeployment (r : mapBasedRepository) (n0 : String)
    (now : Time) (h : latestPointerInvariant r) :
    latestPointerInvariant (CreateDeployment r n0 now).2 := by
  cases hv : GetValidDeployment r n0 with
  | ok d0 =>
    rw [CreateDeployment_of_ok r n0 d0 now hv]
    exact h
  | error e =>
    rw [CreateDeployment_of_error r n0 e now hv]
    intro n d hd hne
    by_cases hn : n = n0
    · subst hn
      have h1 : (r.deployments.insert n { NewDeployment n now with DeployedAt := now }).lookup n
          = some d := hd
      rw [AList.lookup_insert] at h1
      have hd1 := (Option.some.inj h1).symm
      rw [hd1] at hne
      exact absurd rfl hne
    · have h1 : (r.deployments.insert n0
          { NewDeployment n0 now with DeployedAt := now }).lookup n = some d := hd
      rw [AList.lookup_insert_ne hn] at h1
      exact h n d h1 hne

theorem latestPointerInvariant_SetDeploymentState (r : mapBasedRepository) (n0 : String)
    (st : DeploymentState) (now : Time) (h : latestPointerInvariant r) :
    latestPointerInvariant (SetDeploymentState r n0 st now).2 := by
  cases hv : GetValidDeployment r n0 with
  | error e =>
    rw [SetDeploymentState_of_error r n0 e st now hv]
    exact h
  | ok d0 =>
    unfold SetDeploymentState
    rw [hv]
    exact latestPointerInvariant_insert_same_latest r n0 d0 _ h
      ((GetValidDeployment_ok_iff r n0 d0).1 hv).1 rfl

theorem latestPointerInvariant_DeleteDeployment (r : mapBasedRepository) (n0 : String)
    (forget : Bool) (now : Time) (h : latestPointerInvariant r) :
    latestPointerInvariant (DeleteDeployment r n0 forget now).2 := by
  cases hv : GetValidDeployment r n0 with
  | error e =>
    rw [DeleteDeployment_of_error r n0 e forget now hv]
    exact h
  | ok d0 =>
    rw [DeleteDeployment_of_ok r n0 d0 forget now hv]
    cases forget with
    | false =>
      exact latestPointerInvariant_insert_same_latest r n0 d0 _ h
        ((GetValidDeployment_ok_iff r n0 d0).1 hv).1 rfl
    | true =>
      intro n d hd hne
      have h1 : (r.deployments.erase n0).lookup n = some d := hd
      by_cases hn : n = n0
      · rw [hn, AList.lookup_erase] at h1
        cases h1
      · rw [AList.lookup_erase_ne hn] at h1
        obtain ⟨l, m, h2, h3⟩ := h n d h1 hne
        exact ⟨l, m, (AList.lookup_erase_ne hn).trans h2, h3⟩

/-- Storing a manifest in the collection of `n0`, with or without repointing the
latest pointer of `n0` to it, keeps the invariant. -/
theorem latestPointerInvariant_store_manifest (r : mapBasedRepository) (n0 : String)
    (m : Manifest) (deps : GoMap Deployment) (h : latestPointerInvariant r)
    (hother : ∀ n, n ≠ n0 → deps.lookup n = r.deployments.lookup n)
    (hsame : ∀ d, deps.lookup n0 = some d →
      d.LatestManifest = m.Name ∨ r.deployments.lookup n0 = some d) :
    latestPointerInvariant
      { deployments := deps
        manifests :=
          (listManifestsForDeployment r n0).2.manifests.insert n0
            ((manifestsOf r n0).insert m.Name m)
        instances := r.instances } := by
  intro n d hd hne
  have hd1 : deps.lookup n = some d := hd
  by_cases hn : n = n0
  · subst hn
    refine ⟨(manifestsOf r n).insert m.Name m, ?_⟩
    rcases hsame d hd1 with hlatest | hold
    · exact ⟨m, AList.lookup_insert _, by rw [hlatest]; exact AList.lookup_insert _⟩
    · obtain ⟨l, m0, h1, h2⟩ := h n d hold hne
      by_cases hname : d.LatestManifest = m.Name
      · exact ⟨m, AList.lookup_insert _, by rw [hname]; exact AList.lookup_insert _⟩
      · refine ⟨m0, AList.lookup_insert _, ?_⟩
        rw [AList.lookup_insert_ne hname, manifestsOf_of_lookup r n l h1]
        exact h2
  · rw [hother n hn] at hd1
    have hinv := latestPointerInvariant_listManifestsForDeployment r n0 h
    have hd2 : (listManifestsForDeployment r n0).2.deployments.lookup n = some d := by
      rw [listManifestsForDeployment_deployments]
      exact hd1
    obtain ⟨l, m0, h1, h2⟩ := hinv n d hd2 hne
    exact ⟨l, m0, (AList.lookup_insert_ne hn).trans h1, h2⟩

theorem latestPointerInvariant_run (c : FallibleCall) (r : mapBasedRepository)
    (h : latestPointerInvariant r) : latestPointerInvariant (c.run r).2 := by
  cases c with
  | createDeployment n now => exact latestPointerInvariant_CreateDeployment r n now h
  | setDeploymentState n st now => exact latestPointerInvariant_SetDeploymentState r n st now h
  | deleteDeployment n forget now =>
    exact latestPointerInvariant_DeleteDeployment r n forget now h
  | addManifest n m =>
    show latestPointerInvariant (AddManifest r n m).2
    rcases AddManifest_cases r n m with h1 | ⟨d, _, _, h1⟩
    · rw [h1]
      exact latestPointerInvariant_listManifestsForDeployment r n h
    · rw [h1]
      apply latestPointerInvariant_store_manifest r n m _ h
      · intro k hk
        exact AList.lookup_insert_ne hk
      · intro d2 hd2
        rw [AList.lookup_insert] at hd2
        left
        rw [← Option.some.inj hd2]
  | setManifest n m =>
    show latestPointerInvariant (SetManifest r n m).2
    rw [SetManifest_eq]
    apply latestPointerInvariant_store_manifest r n m _ h
    · intro k _
      rfl
    · intro d2 hd2
      exact Or.inr hd2
  | listManifests n =>
    show latestPointerInvariant (ListManifests r n).2
    rcases ListManifests_snd r n with h1 | h1
    · rw [h1]
      exact h
    · rw [h1]
      exact latestPointerInvariant_listManifestsForDeployment r n h
  | getManifest n x =>
    show latestPointerInvariant (GetManifest r n x).2
    rcases GetManifest_snd r n x with h1 | h1
    · rw [h1]
      exact h
    · rw [h1]
      exact latestPointerInvariant_listManifestsForDeployment r n h
  | getLatestManifest n =>
    show latestPointerInvariant (GetLatestManifest r n).2
    rcases GetLatestManifest_snd r n with h1 | h1
    · rw [h1]
      exact h
    · rw [h1]
      exact latestPointerInvariant_listManifestsForDeployment r n h

theorem Reachable_latestPointerInvariant (r : mapBasedRepository) (hr : Reachable r) :
    latestPointerInvariant r := by
  induction hr with
  | empty =>
    intro n d hd _
    cases hd
  | call r c _ ih => exact latestPointerInvariant_run c r ih
  | clearTypeInstances r d _ ih => exact ih
  | setTypeInstances r d M _ ih => exact ih

/-- C19. In every store state reachable from the empty store by the repository's
methods, every record of the deployment map whose `LatestManifest` is not the
empty string has a manifest stored under that name in the manifest collection of
its own deployment name. -/
theorem C19_latest_pointer_invariant (r : mapBasedRepository) (hr : Reachable r)
    (n : String) (d : Deployment) (hd : r.deployments.lookup n = some d)
    (hne : d.LatestManifest ≠ "") :
    ∃ l m, r.manifests.lookup n = some l ∧ l.lookup d.LatestManifest = some m :=
  Reachable_latestPointerInvariant r hr n d hd hne

/-- C19, at a concrete input: the tombstone "a" of `storeWithTombstoneAV1`, whose
latest pointer is "v1". -/
theorem C19_latest_pointer_invariant_witness :
    ∃ l m, storeWithTombstoneAV1.manifests.lookup "a" = some l ∧
      l.lookup ({ deploymentAV1 with
          DeletedAt := 2
          State := { Status := DeletedStatus, Payload := [] } } : Deployment).LatestManifest
        = some m :=
  C19_latest_pointer_invariant storeWithTombstoneAV1
    (Reachable.call _ (.deleteDeployment "a" false 2)
      (Reachable.call _ (.addManifest "a" manifestV1)
        (Reachable.call _ (.createDeployment "a" 1) Reachable.empty)))
    "a"
    { deploymentAV1 with DeletedAt := 2, State := { Status := DeletedStatus, Payload := [] } }
    rfl (by decide)

/-! ## C20: the manifests of a deployment that was just created -/

/-- C20, refuted at a concrete input: the store in which "a" was created, given a
manifest `m` whose name is the empty string, and deleted without forgetting is
reachable; `CreateDeployment("a")` succeeds there, and immediately afterwards
`ListManifests("a")` returns the collection that holds `m`, which is not empty, and
`GetLatestManifest("a")` returns `m`. -/
theorem C20_created_deployment_counterexample :
    Reachable storeWithTombstoneUnnamed ∧
    (CreateDeployment storeWithTombstoneUnnamed "a" 3).1
      = .ok { NewDeployment "a" 3 with DeployedAt := 3 } ∧
    (ListManifests (CreateDeployment storeWithTombstoneUnnamed "a" 3).2 "a").1
      = .ok (AList.singleton "" manifestUnnamed) ∧
    (AList.singleton "" manifestUnnamed : GoMap Manifest) ≠ ∅ ∧
    (GetLatestManifest (CreateDeployment storeWithTombstoneUnnamed "a" 3).2 "a").1
      = .ok manifestUnnamed := by
  refine ⟨?_, rfl, rfl, ?_, rfl⟩
  · exact Reachable.call _ (.deleteDeployment "a" false 2)
      (Reachable.call _ (.addManifest "a" manifestUnnamed)
        (Reachable.call _ (.createDeployment "a" 1) Reachable.empty))
  · intro h
    have h2 := congrArg (fun m : GoMap Manifest => (m.lookup "").isSome) h
    exact absurd h2 (by decide)

/-- C20, amended. If `CreateDeployment(n)` succeeds, the new record has an empty
`LatestManifest`, the manifest map is untouched, and immediately afterwards
`ListManifests(n)` returns the manifest collection that was stored under `n` before
the call (the empty collection when there was none); `GetLatestManifest(n)` fails
with not-found when that collection has no manifest whose name is the empty
string, and returns that manifest when it has one. -/
theorem C20_created_deployment_manifests (r : mapBasedRepository) (n : String) (now : Time)
    (d : Deployment) (h : (CreateDeployment r n now).1 = .ok d) :
    d.LatestManifest = "" ∧
    (CreateDeployment r n now).2.manifests = r.manifests ∧
    (ListManifests (CreateDeployment r n now).2 n).1 = .ok (manifestsOf r n) ∧
    ((manifestsOf r n).lookup "" = none →
      (GetLatestManifest (CreateDeployment r n now).2 n).1
        = .error (.manifestNotFound "" n)) ∧
    (∀ m, (manifestsOf r n).lookup "" = some m →
      (GetLatestManifest (CreateDeployment r n now).2 n).1 = .ok m) := by
  cases hv : GetValidDeployment r n with
  | ok d0 =>
    rw [CreateDeployment_of_ok r n d0 now hv] at h
    cases h
  | error e =>
    rw [CreateDeployment_of_error r n e now hv] at h ⊢
    simp only [Except.ok.injEq] at h
    generalize hr2 :
      ({ r with
         deployments :=
           r.deployments.insert n { NewDeployment n now with DeployedAt := now } }
        : mapBasedRepository) = r2
    have hman : r2.manifests = r.manifests := by
      rw [← hr2]
    have hof : manifestsOf r2 n = manifestsOf r n := by
      unfold manifestsOf
      rw [hman]
    have hv2 : GetValidDeployment r2 n = .ok { NewDeployment n now with DeployedAt := now } := by
      rw [GetValidDeployment_ok_iff, ← hr2]
      exact ⟨AList.lookup_insert _, NewDeployment_status n now⟩
    have hlatest := GetLatestManifest_fst_of_valid r2 n _ hv2
    rw [hof] at hlatest
    have hname :
        ({ NewDeployment n now with DeployedAt := now } : Deployment).LatestManifest = "" := rfl
    rw [hname] at hlatest
    refine ⟨by rw [← h]; rfl, hman, ?_, ?_, ?_⟩
    · unfold ListManifests
      rw [hv2, listManifestsForDeployment_fst, hof]
    · intro hnone
      rw [hlatest, hnone]
    · intro m hsome
      rw [hlatest, hsome]

/-- C20 amended, at a concrete input: re-creating "a" over its tombstone in
`storeWithTombstoneAV1`, where the collection of "a" holds "v1". -/
theorem C20_created_deployment_manifests_witness :
    ({ NewDeployment "a" 3 with DeployedAt := 3 } : Deployment).LatestManifest = "" ∧
    (CreateDeployment storeWithTombstoneAV1 "a" 3).2.manifests
      = storeWithTombstoneAV1.manifests ∧
    (ListManifests (CreateDeployment storeWithTombstoneAV1 "a" 3).2 "a").1
      = .ok (manifestsOf storeWithTombstoneAV1 "a") ∧
    ((manifestsOf storeWithTombstoneAV1 "a").lookup "" = none →
      (GetLatestManifest (CreateDeployment storeWithTombstoneAV1 "a" 3).2 "a").1
        = .error (.manifestNotFound "" "a")) ∧
    (∀ m, (manifestsOf storeWithTombstoneAV1 "a").lookup "" = some m →
      (GetLatestManifest (CreateDeployment storeWithTombstoneAV1 "a" 3).2 "a").1 = .ok m) :=
  C20_created_deployment_manifests storeWithTombstoneAV1 "a" 3
    { NewDeployment "a" 3 with DeployedAt := 3 } rfl

end Repository
